import Mathlib

/-!
Verification development for the SDF sculpting core in `src/utils/sdf.ts`
(scene signed-distance evaluator, Surface Nets isosurface mesher, and the
retopology refiner), together with the node data model of `src/store.ts`.

Numbers are modelled by the real numbers `ℝ`; the floating-point paths whose
behaviour hinges on IEEE-754 special values (division by zero inside the
smooth boolean operators) are additionally modelled exactly by `JSNum` below.
-/

namespace NghiSculp

noncomputable section

open Classical

/-- Model of `THREE.Vector3`: a 3-component real vector. -/
structure V3 where
  x : ℝ
  y : ℝ
  z : ℝ

/-- `THREE.Vector3.lengthSq`: `x*x + y*y + z*z`. -/
def vlengthSq (v : V3) : ℝ := v.x * v.x + v.y * v.y + v.z * v.z

/-- `THREE.Vector3.length`: `sqrt(x*x + y*y + z*z)`. -/
def vlength (v : V3) : ℝ := Real.sqrt (vlengthSq v)

/-- Componentwise minimum (`THREE.Vector3.min`). -/
def vmin (a b : V3) : V3 := ⟨min a.x b.x, min a.y b.y, min a.z b.z⟩

/-- Componentwise maximum (`THREE.Vector3.max`). -/
def vmax (a b : V3) : V3 := ⟨max a.x b.x, max a.y b.y, max a.z b.z⟩

/-- `THREE.Vector3.addScalar`. -/
def vaddScalar (v : V3) (s : ℝ) : V3 := ⟨v.x + s, v.y + s, v.z + s⟩

/-- `THREE.Vector3.subScalar`. -/
def vsubScalar (v : V3) (s : ℝ) : V3 := ⟨v.x - s, v.y - s, v.z - s⟩

/-- `THREE.Vector3.divideScalar` (multiplication by `1/s`; Lean division by
zero yields 0 where JS would give infinities — no claim exercises that path). -/
def vdivScalar (v : V3) (s : ℝ) : V3 := ⟨v.x / s, v.y / s, v.z / s⟩

/-- Componentwise subtraction (`THREE.Vector3.subVectors` / `sub`). -/
def vsub (a b : V3) : V3 := ⟨a.x - b.x, a.y - b.y, a.z - b.z⟩

/-- Componentwise addition. -/
def vadd (a b : V3) : V3 := ⟨a.x + b.x, a.y + b.y, a.z + b.z⟩

/-- Scalar multiple. -/
def vsmul (s : ℝ) (v : V3) : V3 := ⟨s * v.x, s * v.y, s * v.z⟩

/-- Dot product. -/
def vdot (a b : V3) : ℝ := a.x * b.x + a.y * b.y + a.z * b.z

/-- Cross product (used for triangle face normals). -/
def vcross (a b : V3) : V3 :=
  ⟨a.y * b.z - a.z * b.y, a.z * b.x - a.x * b.z, a.x * b.y - a.y * b.x⟩

/-- `THREE.Vector3.normalize`: `divideScalar(length() || 1)` — a zero-length
vector is divided by 1 and therefore left unchanged. -/
def vnormalize (v : V3) : V3 :=
  vdivScalar v (if vlength v = 0 then 1 else vlength v)

/-- Model of `THREE.Matrix4` by its sixteen entries.  `mij` is the entry in
row `i`, column `j` of the mathematical matrix; THREE stores these
column-major (`te[0] = m11`, `te[1] = m21`, …, `te[12] = m14`, `te[15] = m44`). -/
structure M4 where
  m11 : ℝ
  m12 : ℝ
  m13 : ℝ
  m14 : ℝ
  m21 : ℝ
  m22 : ℝ
  m23 : ℝ
  m24 : ℝ
  m31 : ℝ
  m32 : ℝ
  m33 : ℝ
  m34 : ℝ
  m41 : ℝ
  m42 : ℝ
  m43 : ℝ
  m44 : ℝ

/-- `new THREE.Matrix4()`: the identity matrix. -/
def idM4 : M4 := ⟨1,0,0,0, 0,1,0,0, 0,0,1,0, 0,0,0,1⟩

/-- The all-zero matrix (produced by `Matrix4.invert` on a singular input). -/
def zeroM4 : M4 := ⟨0,0,0,0, 0,0,0,0, 0,0,0,0, 0,0,0,0⟩

/-- `THREE.Matrix4.multiplyMatrices(a, b)`: the matrix product `a * b`
(`parent.clone().multiply(local)` computes `parent * local`). -/
def m4mul (a b : M4) : M4 :=
  ⟨a.m11*b.m11 + a.m12*b.m21 + a.m13*b.m31 + a.m14*b.m41,
   a.m11*b.m12 + a.m12*b.m22 + a.m13*b.m32 + a.m14*b.m42,
   a.m11*b.m13 + a.m12*b.m23 + a.m13*b.m33 + a.m14*b.m43,
   a.m11*b.m14 + a.m12*b.m24 + a.m13*b.m34 + a.m14*b.m44,
   a.m21*b.m11 + a.m22*b.m21 + a.m23*b.m31 + a.m24*b.m41,
   a.m21*b.m12 + a.m22*b.m22 + a.m23*b.m32 + a.m24*b.m42,
   a.m21*b.m13 + a.m22*b.m23 + a.m23*b.m33 + a.m24*b.m43,
   a.m21*b.m14 + a.m22*b.m24 + a.m23*b.m34 + a.m24*b.m44,
   a.m31*b.m11 + a.m32*b.m21 + a.m33*b.m31 + a.m34*b.m41,
   a.m31*b.m12 + a.m32*b.m22 + a.m33*b.m32 + a.m34*b.m42,
   a.m31*b.m13 + a.m32*b.m23 + a.m33*b.m33 + a.m34*b.m43,
   a.m31*b.m14 + a.m32*b.m24 + a.m33*b.m34 + a.m34*b.m44,
   a.m41*b.m11 + a.m42*b.m21 + a.m43*b.m31 + a.m44*b.m41,
   a.m41*b.m12 + a.m42*b.m22 + a.m43*b.m32 + a.m44*b.m42,
   a.m41*b.m13 + a.m42*b.m23 + a.m43*b.m33 + a.m44*b.m43,
   a.m41*b.m14 + a.m42*b.m24 + a.m43*b.m34 + a.m44*b.m44⟩

/-- `THREE.Vector3.applyMatrix4`: applies the matrix with perspective divide
(`w = 1 / (m41*x + m42*y + m43*z + m44)`). -/
def applyM4 (m : M4) (v : V3) : V3 :=
  let w : ℝ := 1 / (m.m41 * v.x + m.m42 * v.y + m.m43 * v.z + m.m44)
  ⟨(m.m11 * v.x + m.m12 * v.y + m.m13 * v.z + m.m14) * w,
   (m.m21 * v.x + m.m22 * v.y + m.m23 * v.z + m.m24) * w,
   (m.m31 * v.x + m.m32 * v.y + m.m33 * v.z + m.m34) * w⟩

/-- `THREE.Vector3.setFromMatrixPosition`: the translation column. -/
def matrixPosition (m : M4) : V3 := ⟨m.m14, m.m24, m.m34⟩

/-- `THREE.Quaternion.setFromEuler` for the default XYZ order,
as a quaternion `(x, y, z, w)`. -/
def quatFromEuler (e : V3) : ℝ × ℝ × ℝ × ℝ :=
  let c1 := Real.cos (e.x / 2); let c2 := Real.cos (e.y / 2); let c3 := Real.cos (e.z / 2)
  let s1 := Real.sin (e.x / 2); let s2 := Real.sin (e.y / 2); let s3 := Real.sin (e.z / 2)
  (s1 * c2 * c3 + c1 * s2 * s3,
   c1 * s2 * c3 - s1 * c2 * s3,
   c1 * c2 * s3 + s1 * s2 * c3,
   c1 * c2 * c3 - s1 * s2 * s3)

/-- `THREE.Matrix4.compose(position, quaternion, scale)`. -/
def m4composeQ (p : V3) (q : ℝ × ℝ × ℝ × ℝ) (s : V3) : M4 :=
  let x := q.1; let y := q.2.1; let z := q.2.2.1; let w := q.2.2.2
  let x2 := x + x; let y2 := y + y; let z2 := z + z
  let xx := x * x2; let xy := x * y2; let xz := x * z2
  let yy := y * y2; let yz := y * z2; let zz := z * z2
  let wx := w * x2; let wy := w * y2; let wz := w * z2
  ⟨(1 - (yy + zz)) * s.x, (xy - wz) * s.y, (xz + wy) * s.z, p.x,
   (xy + wz) * s.x, (1 - (xx + zz)) * s.y, (yz - wx) * s.z, p.y,
   (xz - wy) * s.x, (yz + wx) * s.y, (1 - (xx + yy)) * s.z, p.z,
   0, 0, 0, 1⟩

/-- The local matrix `T * R * S` a node contributes:
`compose(position, quaternionFromEuler(rotation), (scale, scale, scale))`. -/
def composeTRS (position rotation : V3) (scale : ℝ) : M4 :=
  m4composeQ position (quatFromEuler rotation) ⟨scale, scale, scale⟩

/-- The cofactor terms `t11..t14` of `THREE.Matrix4.invert` /
`THREE.Matrix4.determinant`. -/
def m4t11 (n : M4) : ℝ :=
  n.m23*n.m34*n.m42 - n.m24*n.m33*n.m42 + n.m24*n.m32*n.m43
    - n.m22*n.m34*n.m43 - n.m23*n.m32*n.m44 + n.m22*n.m33*n.m44

/-- Second cofactor term of `THREE.Matrix4.invert`. -/
def m4t12 (n : M4) : ℝ :=
  n.m14*n.m33*n.m42 - n.m13*n.m34*n.m42 - n.m14*n.m32*n.m43
    + n.m12*n.m34*n.m43 + n.m13*n.m32*n.m44 - n.m12*n.m33*n.m44

/-- Third cofactor term of `THREE.Matrix4.invert`. -/
def m4t13 (n : M4) : ℝ :=
  n.m13*n.m24*n.m42 - n.m14*n.m23*n.m42 + n.m14*n.m22*n.m43
    - n.m12*n.m24*n.m43 - n.m13*n.m22*n.m44 + n.m12*n.m23*n.m44

/-- Fourth cofactor term of `THREE.Matrix4.invert`. -/
def m4t14 (n : M4) : ℝ :=
  n.m14*n.m23*n.m32 - n.m13*n.m24*n.m32 - n.m14*n.m22*n.m33
    + n.m12*n.m24*n.m33 + n.m13*n.m22*n.m34 - n.m12*n.m23*n.m34

/-- `THREE.Matrix4.determinant` (expansion along the first column, as in the
`invert` source: `det = n11*t11 + n21*t12 + n31*t13 + n41*t14`). -/
def m4det (n : M4) : ℝ :=
  n.m11 * m4t11 n + n.m21 * m4t12 n + n.m31 * m4t13 n + n.m41 * m4t14 n

/-- `THREE.Matrix4.invert`: adjugate over determinant; a singular matrix is
replaced by the zero matrix (`if det === 0 return this.set(0,...,0)`). -/
def m4invert (n : M4) : M4 :=
  let det := m4det n
  if det = 0 then zeroM4 else
  let di := 1 / det
  ⟨m4t11 n * di,
   m4t12 n * di,
   m4t13 n * di,
   m4t14 n * di,
   (n.m24*n.m33*n.m41 - n.m23*n.m34*n.m41 - n.m24*n.m31*n.m43
     + n.m21*n.m34*n.m43 + n.m23*n.m31*n.m44 - n.m21*n.m33*n.m44) * di,
   (n.m13*n.m34*n.m41 - n.m14*n.m33*n.m41 + n.m14*n.m31*n.m43
     - n.m11*n.m34*n.m43 - n.m13*n.m31*n.m44 + n.m11*n.m33*n.m44) * di,
   (n.m14*n.m23*n.m41 - n.m13*n.m24*n.m41 - n.m14*n.m21*n.m43
     + n.m11*n.m24*n.m43 + n.m13*n.m21*n.m44 - n.m11*n.m23*n.m44) * di,
   (n.m13*n.m24*n.m31 - n.m14*n.m23*n.m31 + n.m14*n.m21*n.m33
     - n.m11*n.m24*n.m33 - n.m13*n.m21*n.m34 + n.m11*n.m23*n.m34) * di,
   (n.m22*n.m34*n.m41 - n.m24*n.m32*n.m41 + n.m24*n.m31*n.m42
     - n.m21*n.m34*n.m42 - n.m22*n.m31*n.m44 + n.m21*n.m32*n.m44) * di,
   (n.m14*n.m32*n.m41 - n.m12*n.m34*n.m41 - n.m14*n.m31*n.m42
     + n.m11*n.m34*n.m42 + n.m12*n.m31*n.m44 - n.m11*n.m32*n.m44) * di,
   (n.m12*n.m24*n.m41 - n.m14*n.m22*n.m41 + n.m14*n.m21*n.m42
     - n.m11*n.m24*n.m42 - n.m12*n.m21*n.m44 + n.m11*n.m22*n.m44) * di,
   (n.m14*n.m22*n.m31 - n.m12*n.m24*n.m31 - n.m14*n.m21*n.m32
     + n.m11*n.m24*n.m32 + n.m12*n.m21*n.m34 - n.m11*n.m22*n.m34) * di,
   (n.m23*n.m32*n.m41 - n.m22*n.m33*n.m41 - n.m23*n.m31*n.m42
     + n.m21*n.m33*n.m42 + n.m22*n.m31*n.m43 - n.m21*n.m32*n.m43) * di,
   (n.m12*n.m33*n.m41 - n.m13*n.m32*n.m41 + n.m13*n.m31*n.m42
     - n.m11*n.m33*n.m42 - n.m12*n.m31*n.m43 + n.m11*n.m32*n.m43) * di,
   (n.m13*n.m22*n.m41 - n.m12*n.m23*n.m41 - n.m13*n.m21*n.m42
     + n.m11*n.m23*n.m42 + n.m12*n.m21*n.m43 - n.m11*n.m22*n.m43) * di,
   (n.m12*n.m23*n.m31 - n.m13*n.m22*n.m31 + n.m13*n.m21*n.m32
     - n.m11*n.m23*n.m32 - n.m12*n.m21*n.m33 + n.m11*n.m22*n.m33) * di⟩

/-- The scale part of `THREE.Matrix4.decompose`: the lengths of the three
basis columns, with `sx` negated when the determinant is negative. -/
def decomposeScale (m : M4) : V3 :=
  let sx0 := vlength ⟨m.m11, m.m21, m.m31⟩
  let sx := if m4det m < 0 then -sx0 else sx0
  ⟨sx, vlength ⟨m.m12, m.m22, m.m32⟩, vlength ⟨m.m13, m.m23, m.m33⟩⟩

/-- Sanity check: the embedded `m4invert` really inverts an invertible matrix
(verified here on a translation ∘ scale example). -/
theorem m4invert_sanity :
    m4mul (m4invert (composeTRS ⟨3, -2, 5⟩ ⟨0, 0, 0⟩ 2))
      (composeTRS ⟨3, -2, 5⟩ ⟨0, 0, 0⟩ 2) = idM4 := by
  have h : composeTRS ⟨3, -2, 5⟩ ⟨0, 0, 0⟩ 2 =
      ⟨2,0,0,3, 0,2,0,-2, 0,0,2,5, 0,0,0,1⟩ := by
    simp only [composeTRS, quatFromEuler, m4composeQ]
    norm_num
  rw [h]
  have hdet : m4det ⟨2,0,0,3, 0,2,0,-2, 0,0,2,5, 0,0,0,1⟩ = 8 := by
    simp only [m4det, m4t11, m4t12, m4t13, m4t14]; norm_num
  simp only [m4invert, m4t11, m4t12, m4t13, m4t14, hdet]
  norm_num [m4mul, idM4]

-- ## SDF primitives (`src/utils/sdf.ts` lines 4–24)

/-- `sdSphere(p, r) = p.length() - r`. -/
def sdSphere (p : V3) (r : ℝ) : ℝ := vlength p - r

/-- `sdBox(p, b)`:
`min(max(x, max(y, z)), 0) + length(max(x,0), max(y,0), max(z,0))`
with `x = |p.x| - b.x`, etc. -/
def sdBox (p : V3) (b : V3) : ℝ :=
  let x := |p.x| - b.x
  let y := |p.y| - b.y
  let z := |p.z| - b.z
  min (max x (max y z)) 0 + vlength ⟨max x 0, max y 0, max z 0⟩

/-- `sdCapsule(p, h, r)`: Y-aligned capsule,
`py = p.y - max(-h/2, min(h/2, p.y))`, `dist = length(p.x, py, p.z) - r`. -/
def sdCapsule (p : V3) (h r : ℝ) : ℝ :=
  let halfH := h / 2
  let py := p.y - max (-halfH) (min halfH p.y)
  vlength ⟨p.x, py, p.z⟩ - r

-- ## Smooth boolean operators (`src/utils/sdf.ts` lines 28–38)

/-- Polynomial smooth minimum
`h = max(k - |a - b|, 0) / k; min(a,b) - h*h*k*0.25`, over `ℝ`
(the idealisation used inside the evaluator embedding; `ℝ` division by zero
yields 0 where IEEE-754 yields NaN — the exact float behaviour of the
degenerate `k = 0` case is treated separately with `JSNum` below). -/
def smin (a b k : ℝ) : ℝ :=
  let h := max (k - |a - b|) 0 / k
  min a b - h * h * k * 0.25

/-- Polynomial smooth maximum, `max(a,b) + h*h*k*0.25` (see `smin`). -/
def smax (a b k : ℝ) : ℝ :=
  let h := max (k - |a - b|) 0 / k
  max a b + h * h * k * 0.25

-- ## Exact model of JavaScript number semantics for the smooth operators

/-- Exact model of a JavaScript IEEE-754 double for the paths exercised by
`smin`/`smax`: NaN, a signed infinity, or a finite value held exactly as a
rational.  Every operation below agrees with IEEE-754 evaluation whenever the
individual operations are exact, which covers the whole `blendStrength = 0`
analysis (each step there is `0 - x`, `max(·, 0)`, `0/0` or a NaN
propagation, none of which rounds).  Signed zero is not distinguished; no
operation used here depends on it. -/
inductive JSNum where
  | nan : JSNum
  | inf : Bool → JSNum
  | fin : ℚ → JSNum
deriving DecidableEq

namespace JSNum

/-- JS subtraction `a - b` with IEEE special values. -/
def jsub : JSNum → JSNum → JSNum
  | nan, _ => nan
  | _, nan => nan
  | inf s, inf t => if s = t then nan else inf s
  | inf s, fin _ => inf s
  | fin _, inf t => inf (!t)
  | fin a, fin b => fin (a - b)

/-- JS addition `a + b` with IEEE special values. -/
def jadd : JSNum → JSNum → JSNum
  | nan, _ => nan
  | _, nan => nan
  | inf s, inf t => if s = t then inf s else nan
  | inf s, fin _ => inf s
  | fin _, inf t => inf t
  | fin a, fin b => fin (a + b)

/-- JS multiplication with IEEE special values (`∞ * 0 = NaN`). -/
def jmul : JSNum → JSNum → JSNum
  | nan, _ => nan
  | _, nan => nan
  | inf s, inf t => inf (s == t)
  | inf s, fin b => if b = 0 then nan else inf (s == decide (0 < b))
  | fin a, inf t => if a = 0 then nan else inf (t == decide (0 < a))
  | fin a, fin b => fin (a * b)

/-- JS division with IEEE special values (`0 / 0 = NaN`, `x / 0 = ±∞`). -/
def jdiv : JSNum → JSNum → JSNum
  | nan, _ => nan
  | _, nan => nan
  | inf _, inf _ => nan
  | inf s, fin b => inf (s == decide (0 <= b))
  | fin _, inf _ => fin 0
  | fin a, fin b =>
    if b = 0 then (if a = 0 then nan else inf (decide (0 < a))) else fin (a / b)

/-- `Math.abs` (NaN propagates, `|±∞| = +∞`). -/
def jabs : JSNum → JSNum
  | nan => nan
  | inf _ => inf true
  | fin a => fin |a|

/-- `Math.max` (returns NaN if any argument is NaN). -/
def jmax : JSNum → JSNum → JSNum
  | nan, _ => nan
  | _, nan => nan
  | inf s, inf t => inf (s || t)
  | inf s, fin b => if s then inf true else fin b
  | fin a, inf t => if t then inf true else fin a
  | fin a, fin b => fin (max a b)

/-- `Math.min` (returns NaN if any argument is NaN). -/
def jmin : JSNum → JSNum → JSNum
  | nan, _ => nan
  | _, nan => nan
  | inf s, inf t => inf (s && t)
  | inf s, fin b => if s then fin b else inf false
  | fin a, inf t => if t then fin a else inf false
  | fin a, fin b => fin (min a b)

end JSNum

/-- `smin` evaluated with exact JavaScript number semantics:
`h = Math.max(k - Math.abs(a - b), 0.0) / k; Math.min(a, b) - h * h * k * 0.25`. -/
def jsmin (a b k : JSNum) : JSNum :=
  let h := JSNum.jdiv (JSNum.jmax (JSNum.jsub k (JSNum.jabs (JSNum.jsub a b))) (JSNum.fin 0)) k
  JSNum.jsub (JSNum.jmin a b) (JSNum.jmul (JSNum.jmul (JSNum.jmul h h) k) (JSNum.fin (1/4)))

/-- `smax` evaluated with exact JavaScript number semantics. -/
def jsmax (a b k : JSNum) : JSNum :=
  let h := JSNum.jdiv (JSNum.jmax (JSNum.jsub k (JSNum.jabs (JSNum.jsub a b))) (JSNum.fin 0)) k
  JSNum.jadd (JSNum.jmax a b) (JSNum.jmul (JSNum.jmul (JSNum.jmul h h) k) (JSNum.fin (1/4)))

-- ## Data model (`src/store.ts` lines 4–16)

/-- `MeshType = 'sphere' | 'cube' | 'capsule'`. -/
inductive MeshType where
  | sphere : MeshType
  | cube : MeshType
  | capsule : MeshType
deriving DecidableEq

/-- `MeshOperation = 'union' | 'subtract' | 'intersect'`. -/
inductive MeshOperation where
  | union : MeshOperation
  | subtract : MeshOperation
  | intersect : MeshOperation
deriving DecidableEq

/-- `MeshNode` (`src/store.ts`): one node of the CSG tree.  `parentId` is
`string | null`, modelled as `Option String`. -/
structure MeshNode where
  id : String
  type : MeshType
  operation : MeshOperation
  position : V3
  rotation : V3
  scale : ℝ
  parentId : Option String
  visible : Bool

/-- Id of the non-primitive container node skipped by the core. -/
def rootId : String := "PROCEDURE_MESH_ROOT"

/-- Lookup in the `meshMap` built by `meshes.forEach(m => meshMap.set(m.id, m))`:
for a duplicated id the last `set` wins, hence the search over the reversed
list. -/
def findNode (meshes : List MeshNode) (id : String) : Option MeshNode :=
  meshes.reverse.find? (fun m => m.id == id)

/-- The local matrix of a node (`localMatrix.compose(position,
quaternionFromEuler(rotation), (scale, scale, scale))`). -/
def localMatrixOf (mesh : MeshNode) : M4 :=
  composeTRS mesh.position mesh.rotation mesh.scale

-- ## Transform resolution (`createSDFEvaluator`, lines 51–75)

/-- Fuel-indexed model of the recursive `getWorldMatrix` of
`createSDFEvaluator`; `none` means the recursion did not finish within the
given fuel (the JS function would still be recursing — on a cyclic snapshot
it never returns).  A node id absent from the map yields `new Matrix4()`
(the identity); a parent id is followed only when it is present in the map
(`mesh.parentId && meshMap.has(mesh.parentId)`), so a dangling parent
reference leaves the node with its local matrix.  The memo cache of the
source only avoids recomputation and does not change the computed value. -/
def getWorldMatrixFuel (meshes : List MeshNode) : ℕ → String → Option M4
  | 0, _ => none
  | fuel + 1, id =>
    match findNode meshes id with
    | none => some idM4
    | some mesh =>
      match mesh.parentId with
      | some pid =>
        if (findNode meshes pid).isSome then
          (getWorldMatrixFuel meshes fuel pid).map
            (fun parentMatrix => m4mul parentMatrix (localMatrixOf mesh))
        else some (localMatrixOf mesh)
      | none => some (localMatrixOf mesh)

/-- Total wrapper: the value of the JS `getWorldMatrix` whenever the JS
recursion terminates (fuel `length + 1` suffices for any acyclic snapshot);
a cyclic snapshot — on which the JS code never returns — is defaulted to the
identity. -/
def getWorldMatrix (meshes : List MeshNode) (id : String) : M4 :=
  (getWorldMatrixFuel meshes (meshes.length + 1) id).getD idM4

-- ## Scalar field evaluator (`createSDFEvaluator`, lines 42–140)

/-- The record precomputed per active mesh (step 4 of `createSDFEvaluator`). -/
structure SDFItem where
  type : MeshType
  operation : MeshOperation
  inverseMatrix : M4
  scale : ℝ

/-- `meshes.filter(m => m.id !== 'PROCEDURE_MESH_ROOT')`. -/
def activeMeshesOf (meshes : List MeshNode) : List MeshNode :=
  meshes.filter (fun m => m.id != rootId)

/-- Step 4 of `createSDFEvaluator`: world matrix, its inverse, and the mean
decomposed scale per active mesh. -/
def buildItems (meshes : List MeshNode) : List SDFItem :=
  (activeMeshesOf meshes).map fun mesh =>
    let worldMatrix := getWorldMatrix meshes mesh.id
    let scl := decomposeScale worldMatrix
    { type := mesh.type
      operation := mesh.operation
      inverseMatrix := m4invert worldMatrix
      scale := (scl.x + scl.y + scl.z) / 3 }

/-- The primitive dispatch of the evaluator loop: `'cube'` and `'capsule'`
are tested explicitly and everything else falls back to the sphere. -/
def evalPrimitive (t : MeshType) (p : V3) : ℝ :=
  match t with
  | .cube => sdBox p ⟨0.5, 0.5, 0.5⟩
  | .capsule => sdCapsule p 1.0 0.5
  | .sphere => sdSphere p 0.5

/-- One iteration of the evaluator's combination loop; the accumulator is
`(d, first)`, seeded with `(10000.0, true)`. -/
def sdfCombineStep (blendStrength : ℝ) (pos : V3) (acc : ℝ × Bool)
    (item : SDFItem) : ℝ × Bool :=
  let localP := applyM4 item.inverseMatrix pos
  let dist := evalPrimitive item.type localP * item.scale
  if acc.2 then (dist, false)
  else
    match item.operation with
    | .subtract => (smax acc.1 (-dist) blendStrength, false)
    | .intersect => (smax acc.1 dist blendStrength, false)
    | .union => (smin acc.1 dist blendStrength, false)

/-- The scalar field returned by `createSDFEvaluator(meshes, blendStrength)`. -/
def sdfEvaluate (meshes : List MeshNode) (blendStrength : ℝ) (pos : V3) : ℝ :=
  ((buildItems meshes).foldl (sdfCombineStep blendStrength pos) (10000.0, true)).1

-- ## Grid sizing (`generateIsosurfaceGeometry`, line 392)

/-- `const gridRes = Math.min(Math.floor(resolution * 4), 128)`. -/
def gridResOf (resolution : ℝ) : ℤ := min ⌊resolution * 4⌋ 128

/-- The per-axis cell count as the specification words it:
`clamp(floor(resolution × 4), 2, 128)`. -/
def gridResClamped (resolution : ℝ) : ℤ := max 2 (min ⌊resolution * 4⌋ 128)

-- ## Isosurface mesher (`generateIsosurfaceGeometry`, lines 342–562)

/-- Fuel-indexed model of the mesher's own `getWorldMatrix` (lines 356–374);
unlike the evaluator's copy it recurses into *any* declared parent id, so a
dangling parent resolves to the identity matrix one level up. -/
def getWorldMatrixMesherFuel (meshes : List MeshNode) : ℕ → String → Option M4
  | 0, _ => none
  | fuel + 1, id =>
    match findNode meshes id with
    | none => some idM4
    | some mesh =>
      match mesh.parentId with
      | some pid =>
        (getWorldMatrixMesherFuel meshes fuel pid).map
          (fun parentMatrix => m4mul parentMatrix (localMatrixOf mesh))
      | none => some (localMatrixOf mesh)

/-- Total wrapper of the mesher's `getWorldMatrix` (fuel `length + 2` covers
every terminating run of the JS recursion; cycles default to the identity). -/
def getWorldMatrixMesher (meshes : List MeshNode) (id : String) : M4 :=
  (getWorldMatrixMesherFuel meshes (meshes.length + 2) id).getD idM4

/-- `THREE.Box3.expandByPoint`; `none` is the empty box (`min = +∞`,
`max = −∞` in THREE). -/
def expandByPoint : Option (V3 × V3) → V3 → Option (V3 × V3)
  | none, p => some (p, p)
  | some (mn, mx), p => some (vmin mn p, vmax mx p)

/-- The bounds contribution of one active mesh (lines 376–387): expand by
`pos ± (max(scale) * 1.5 + blendStrength)`. -/
def meshBoundContrib (meshes : List MeshNode) (blendStrength : ℝ)
    (box : Option (V3 × V3)) (m : MeshNode) : Option (V3 × V3) :=
  let mat := getWorldMatrixMesher meshes m.id
  let pos := matrixPosition mat
  let scl := decomposeScale mat
  let radius := max scl.x (max scl.y scl.z) * 1.5
  let pad := radius + blendStrength
  expandByPoint (expandByPoint box (vaddScalar pos pad)) (vsubScalar pos pad)

/-- The bounding box after the per-mesh expansion and the final
`box.expandByScalar(1.0)`. -/
def boundsBoxOf (meshes : List MeshNode) (blendStrength : ℝ) : Option (V3 × V3) :=
  ((activeMeshesOf meshes).foldl (meshBoundContrib meshes blendStrength) none).map
    (fun bx => (vsubScalar bx.1 1, vaddScalar bx.2 1))

/-- `box.min` (only read on the non-empty path of the mesher). -/
def boxMinOf (meshes : List MeshNode) (blendStrength : ℝ) : V3 :=
  ((boundsBoxOf meshes blendStrength).getD (⟨0, 0, 0⟩, ⟨0, 0, 0⟩)).1

/-- `box.getSize(size)`: `max − min` componentwise. -/
def boxSizeOf (meshes : List MeshNode) (blendStrength : ℝ) : V3 :=
  let bx := (boundsBoxOf meshes blendStrength).getD (⟨0, 0, 0⟩, ⟨0, 0, 0⟩)
  vsub bx.2 bx.1

/-- `const step = size.clone().divideScalar(gridRes)` (before the degeneracy
substitution). -/
def stepRawOf (meshes : List MeshNode) (resolution blendStrength : ℝ) : V3 :=
  vdivScalar (boxSizeOf meshes blendStrength) ((gridResOf resolution : ℤ) : ℝ)

/-- `const avgStep = (step.x + step.y + step.z) / 3` (computed from the raw
step, before the degeneracy substitution). -/
def avgStepOf (meshes : List MeshNode) (resolution blendStrength : ℝ) : ℝ :=
  let s := stepRawOf meshes resolution blendStrength
  (s.x + s.y + s.z) / 3

/-- `if (step.lengthSq() < 0.0001) step.set(0.1, 0.1, 0.1)`. -/
def stepOf (meshes : List MeshNode) (resolution blendStrength : ℝ) : V3 :=
  let s := stepRawOf meshes resolution blendStrength
  if vlengthSq s < 0.0001 then ⟨0.1, 0.1, 0.1⟩ else s

/-- The per-axis cell count as a loop trip count (`for (x = 0; x < dims; x++)`
performs `gridRes.toNat` iterations, none when `gridRes ≤ 0`). -/
def nCellsOf (resolution : ℝ) : ℕ := (gridResOf resolution).toNat

/-- The world position of grid corner `(x, y, z)`
(`box.min + (x, y, z) * step`). -/
def probeAt (meshes : List MeshNode) (resolution blendStrength : ℝ)
    (x y z : ℕ) : V3 :=
  let bmin := boxMinOf meshes blendStrength
  let step := stepOf meshes resolution blendStrength
  ⟨bmin.x + x * step.x, bmin.y + y * step.y, bmin.z + z * step.z⟩

/-- The sampled scalar value at grid corner `(x, y, z)`; the flat `values`
array is modelled by this indexing function (the source reads it only at
in-range indices `x + y*(n+1) + z*(n+1)²`, which decode uniquely). -/
def gridValue (meshes : List MeshNode) (resolution blendStrength : ℝ)
    (x y z : ℕ) : ℝ :=
  sdfEvaluate meshes blendStrength (probeAt meshes resolution blendStrength x y z)

/-- The cell iteration order of the vertex loop (`z` outer, `y`, then `x`
inner); a cell is named by its `(x, y, z)` coordinates. -/
def cellList (n : ℕ) : List (ℕ × ℕ × ℕ) :=
  (List.range n).flatMap fun z =>
    (List.range n).flatMap fun y =>
      (List.range n).map fun x => (x, y, z)

/-- Sign disagreement `(va > 0) !== (vb > 0)` between two sampled values. -/
def signDiff (a b : ℝ) : Prop := ¬ ((0 < a) ↔ (0 < b))

/-- The edge-crossing interpolation
`interp(valA, valB, posA, posB) = posA + (valA / (valA − valB)) * (posB − posA)`. -/
def interp (valA valB posA posB : ℝ) : ℝ :=
  posA + valA / (valA - valB) * (posB - posA)

/-- The twelve optional edge-crossing contributions of cell `(x, y, z)`, in
the order of the source (four X edges, four Y edges, four Z edges). -/
def cellCrossings (meshes : List MeshNode) (resolution blendStrength : ℝ)
    (c : ℕ × ℕ × ℕ) : List (Option V3) :=
  let x := c.1; let y := c.2.1; let z := c.2.2
  let v := gridValue meshes resolution blendStrength
  let bmin := boxMinOf meshes blendStrength
  let step := stepOf meshes resolution blendStrength
  let x0 := bmin.x + x * step.x; let x1 := x0 + step.x
  let y0 := bmin.y + y * step.y; let y1 := y0 + step.y
  let z0 := bmin.z + z * step.z; let z1 := z0 + step.z
  let yy1 := bmin.y + ((y : ℝ) + 1) * step.y
  let zz1 := bmin.z + ((z : ℝ) + 1) * step.z
  let xx1 := bmin.x + ((x : ℝ) + 1) * step.x
  [if signDiff (v x y z) (v (x+1) y z) then
      some ⟨interp (v x y z) (v (x+1) y z) x0 x1, y0, z0⟩ else none,
   if signDiff (v x (y+1) z) (v (x+1) (y+1) z) then
      some ⟨interp (v x (y+1) z) (v (x+1) (y+1) z) x0 x1, yy1, z0⟩ else none,
   if signDiff (v x y (z+1)) (v (x+1) y (z+1)) then
      some ⟨interp (v x y (z+1)) (v (x+1) y (z+1)) x0 x1, y0, zz1⟩ else none,
   if signDiff (v x (y+1) (z+1)) (v (x+1) (y+1) (z+1)) then
      some ⟨interp (v x (y+1) (z+1)) (v (x+1) (y+1) (z+1)) x0 x1, yy1, zz1⟩ else none,
   if signDiff (v x y z) (v x (y+1) z) then
      some ⟨x0, interp (v x y z) (v x (y+1) z) y0 y1, z0⟩ else none,
   if signDiff (v (x+1) y z) (v (x+1) (y+1) z) then
      some ⟨xx1, interp (v (x+1) y z) (v (x+1) (y+1) z) y0 y1, z0⟩ else none,
   if signDiff (v x y (z+1)) (v x (y+1) (z+1)) then
      some ⟨x0, interp (v x y (z+1)) (v x (y+1) (z+1)) y0 y1, zz1⟩ else none,
   if signDiff (v (x+1) y (z+1)) (v (x+1) (y+1) (z+1)) then
      some ⟨xx1, interp (v (x+1) y (z+1)) (v (x+1) (y+1) (z+1)) y0 y1, zz1⟩ else none,
   if signDiff (v x y z) (v x y (z+1)) then
      some ⟨x0, y0, interp (v x y z) (v x y (z+1)) z0 z1⟩ else none,
   if signDiff (v (x+1) y z) (v (x+1) y (z+1)) then
      some ⟨xx1, y0, interp (v (x+1) y z) (v (x+1) y (z+1)) z0 z1⟩ else none,
   if signDiff (v x (y+1) z) (v x (y+1) (z+1)) then
      some ⟨x0, yy1, interp (v x (y+1) z) (v x (y+1) (z+1)) z0 z1⟩ else none,
   if signDiff (v (x+1) (y+1) z) (v (x+1) (y+1) (z+1)) then
      some ⟨xx1, yy1, interp (v (x+1) (y+1) z) (v (x+1) (y+1) (z+1)) z0 z1⟩ else none]

/-- Accumulate the crossing sum and count (`sumX/Y/Z` and `count`). -/
def reduceCrossings (l : List (Option V3)) : V3 × ℕ :=
  l.foldl
    (fun acc o => match o with
      | some v => (vadd acc.1 v, acc.2 + 1)
      | none => acc)
    (⟨0, 0, 0⟩, 0)

/-- Number of sign-changing edges of a cell. -/
def cellCount (meshes : List MeshNode) (resolution blendStrength : ℝ)
    (c : ℕ × ℕ × ℕ) : ℕ :=
  (reduceCrossings (cellCrossings meshes resolution blendStrength c)).2

/-- The Surface Nets vertex of an active cell (`sum / count`). -/
def cellVertex (meshes : List MeshNode) (resolution blendStrength : ℝ)
    (c : ℕ × ℕ × ℕ) : V3 :=
  let r := reduceCrossings (cellCrossings meshes resolution blendStrength c)
  ⟨r.1.x / r.2, r.1.y / r.2, r.1.z / r.2⟩

/-- The 8-bit occupancy mask of a cell; the source combines the disjoint
powers of two with `|`, which on disjoint bits equals this sum. -/
def cellMask (meshes : List MeshNode) (resolution blendStrength : ℝ)
    (c : ℕ × ℕ × ℕ) : ℕ :=
  let x := c.1; let y := c.2.1; let z := c.2.2
  let v := gridValue meshes resolution blendStrength
  (if 0 < v x y z then 1 else 0) + (if 0 < v (x+1) y z then 2 else 0) +
  (if 0 < v x (y+1) z then 4 else 0) + (if 0 < v (x+1) (y+1) z then 8 else 0) +
  (if 0 < v x y (z+1) then 16 else 0) + (if 0 < v (x+1) y (z+1) then 32 else 0) +
  (if 0 < v x (y+1) (z+1) then 64 else 0) +
  (if 0 < v (x+1) (y+1) (z+1) then 128 else 0)

/-- A cell is active (emits a vertex and enters `cellToVertMap`) when its
mask is mixed and it has at least one crossing. -/
def cellActive (meshes : List MeshNode) (resolution blendStrength : ℝ)
    (c : ℕ × ℕ × ℕ) : Prop :=
  cellMask meshes resolution blendStrength c ≠ 0 ∧
  cellMask meshes resolution blendStrength c ≠ 255 ∧
  0 < cellCount meshes resolution blendStrength c

/-- The active cells in emission order. -/
def activeCellsOf (meshes : List MeshNode) (resolution blendStrength : ℝ) :
    List (ℕ × ℕ × ℕ) :=
  (cellList (nCellsOf resolution)).filter
    (fun c => decide (cellActive meshes resolution blendStrength c))

/-- `cellToVertMap.get`: the vertex index recorded for a cell is its position
in the emission order (the map stores `vertices.length/3 − 1` at push time). -/
def cellVertIndex (meshes : List MeshNode) (resolution blendStrength : ℝ)
    (c : ℕ × ℕ × ℕ) : Option ℕ :=
  (activeCellsOf meshes resolution blendStrength).findIdx? (fun c2 => c2 == c)

/-- The flat `vertices` number array (three entries per active cell). -/
def meshVerticesOf (meshes : List MeshNode) (resolution blendStrength : ℝ) :
    List ℝ :=
  (activeCellsOf meshes resolution blendStrength).flatMap
    (fun c =>
      let vtx := cellVertex meshes resolution blendStrength c
      [vtx.x, vtx.y, vtx.z])

/-- `addQuad(c0, c1, c2, c3, flip)` (lines 489–513): the pair of index lists
appended to `indices` and to `wireframeIndices`; nothing is appended unless
all four cells have a recorded vertex. -/
def addQuad (meshes : List MeshNode) (resolution blendStrength : ℝ)
    (c0 c1 c2 c3 : ℕ × ℕ × ℕ) (flip : Prop) : List ℕ × List ℕ :=
  match cellVertIndex meshes resolution blendStrength c0,
        cellVertIndex meshes resolution blendStrength c1,
        cellVertIndex meshes resolution blendStrength c2,
        cellVertIndex meshes resolution blendStrength c3 with
  | some v0, some v1, some v2, some v3 =>
    (if flip then [v0, v1, v3, v0, v3, v2] else [v0, v2, v3, v0, v3, v1],
     if flip then [v0, v1, v1, v3, v3, v2, v2, v0]
      else [v0, v2, v2, v3, v3, v1, v1, v0])
  | _, _, _, _ => ([], [])

/-- The X-axis quad family (lines 516–522). -/
def xQuadCalls (meshes : List MeshNode) (resolution blendStrength : ℝ) :
    List (List ℕ × List ℕ) :=
  let n := nCellsOf resolution
  let v := gridValue meshes resolution blendStrength
  (List.range' 1 (n - 1)).flatMap fun z =>
    (List.range' 1 (n - 1)).flatMap fun y =>
      (List.range n).map fun x =>
        if signDiff (v x y z) (v (x+1) y z) then
          addQuad meshes resolution blendStrength
            (x, y-1, z-1) (x, y, z-1) (x, y-1, z) (x, y, z) (0 < v x y z)
        else ([], [])

/-- The Y-axis quad family (lines 524–530); note the inverted flip hint
`values[i0] < 0`. -/
def yQuadCalls (meshes : List MeshNode) (resolution blendStrength : ℝ) :
    List (List ℕ × List ℕ) :=
  let n := nCellsOf resolution
  let v := gridValue meshes resolution blendStrength
  (List.range' 1 (n - 1)).flatMap fun z =>
    (List.range n).flatMap fun y =>
      (List.range' 1 (n - 1)).map fun x =>
        if signDiff (v x y z) (v x (y+1) z) then
          addQuad meshes resolution blendStrength
            (x-1, y, z-1) (x, y, z-1) (x-1, y, z) (x, y, z) (v x y z < 0)
        else ([], [])

/-- The Z-axis quad family (lines 532–538). -/
def zQuadCalls (meshes : List MeshNode) (resolution blendStrength : ℝ) :
    List (List ℕ × List ℕ) :=
  let n := nCellsOf resolution
  let v := gridValue meshes resolution blendStrength
  (List.range n).flatMap fun z =>
    (List.range' 1 (n - 1)).flatMap fun y =>
      (List.range' 1 (n - 1)).map fun x =>
        if signDiff (v x y z) (v x y (z+1)) then
          addQuad meshes resolution blendStrength
            (x-1, y-1, z) (x, y-1, z) (x-1, y, z) (x, y, z) (0 < v x y z)
        else ([], [])

/-- All quad-loop iterations in execution order (X, then Y, then Z family). -/
def quadCallsOf (meshes : List MeshNode) (resolution blendStrength : ℝ) :
    List (List ℕ × List ℕ) :=
  xQuadCalls meshes resolution blendStrength ++
  yQuadCalls meshes resolution blendStrength ++
  zQuadCalls meshes resolution blendStrength

/-- The triangle index buffer (`indices`). -/
def meshTriIndicesOf (meshes : List MeshNode) (resolution blendStrength : ℝ) :
    List ℕ :=
  (quadCallsOf meshes resolution blendStrength).flatMap Prod.fst

/-- The wireframe index buffer (`wireframeIndices`). -/
def meshWireIndicesOf (meshes : List MeshNode) (resolution blendStrength : ℝ) :
    List ℕ :=
  (quadCallsOf meshes resolution blendStrength).flatMap Prod.snd

/-- Number of quads actually emitted (calls of `addQuad` in which all four
vertex lookups succeeded — exactly the calls contributing 6 triangle
indices). -/
def emittedQuadCount (meshes : List MeshNode) (resolution blendStrength : ℝ) :
    ℕ :=
  ((quadCallsOf meshes resolution blendStrength).filter
    (fun q => !(q.1.isEmpty))).length

-- ## Bone extraction (`extractBones`, lines 150–214)

/-- One derived bone segment (fields `start`, `end`, `dir`, `lengthSq`;
`end` is renamed `stop` for Lean). -/
structure BoneSegment where
  start : V3
  stop : V3
  dir : V3
  lengthSq : ℝ

/-- The ancestor chain collected by the `while (curr && meshMap.has(curr))`
loop, root first (fuel `length + 1` covers every terminating run; a cyclic
chain, on which the JS loop never exits, returns `[]` at fuel 0). -/
def ancestorsFuel (meshes : List MeshNode) : ℕ → Option String → List MeshNode
  | 0, _ => []
  | _ + 1, none => []
  | fuel + 1, some cid =>
    match findNode meshes cid with
    | none => []
    | some m => ancestorsFuel meshes fuel m.parentId ++ [m]

/-- `getWorldPosition` of `extractBones` (lines 154–189): the final matrix is
the left-to-right product of the ancestor chain times the local matrix. -/
def extractWorldMatrix (meshes : List MeshNode) (id : String) : M4 :=
  match findNode meshes id with
  | none => idM4
  | some mesh =>
    let localM := localMatrixOf mesh
    match mesh.parentId with
    | none => localM
    | some _ =>
      let parents := ancestorsFuel meshes (meshes.length + 1) mesh.parentId
      m4mul (parents.foldl (fun acc p => m4mul acc (localMatrixOf p)) idM4) localM

/-- `getWorldPosition(id)`: the translation column of the accumulated matrix. -/
def extractWorldPosition (meshes : List MeshNode) (id : String) : V3 :=
  matrixPosition (extractWorldMatrix meshes id)

/-- `extractBones(meshes)` (lines 191–213): one segment per (parent, child)
pair of non-root nodes whose world positions are farther apart than
`sqrt(0.0001)`. -/
def extractBones (meshes : List MeshNode) : List BoneSegment :=
  meshes.flatMap fun m =>
    match m.parentId with
    | none => []
    | some pid =>
      if m.id = rootId then []
      else
        match findNode meshes pid with
        | none => []
        | some parent =>
          if parent.id = rootId then []
          else
            let s := extractWorldPosition meshes parent.id
            let e := extractWorldPosition meshes m.id
            let diff := vsub e s
            let lenSq := vlengthSq diff
            if 0.0001 < lenSq then [⟨s, e, vnormalize diff, lenSq⟩] else []

-- ## Retopology refiner (`refineMesh`, lines 218–337)

/-- The triangle triples `(indices[i], indices[i+1], indices[i+2])`
for `i = 0, 3, 6, …`. -/
def triangleTriples : List ℕ → List (ℕ × ℕ × ℕ)
  | a :: b :: c :: rest => (a, b, c) :: triangleTriples rest
  | _ => []

/-- `if (!adjacency[a].includes(b)) adjacency[a].push(b)`. -/
def adjInsert (adj : ℕ → List ℕ) (a b : ℕ) : ℕ → List ℕ :=
  fun i => if i = a then (if b ∈ adj a then adj a else adj a ++ [b]) else adj i

/-- The neighbour lists built from the triangle index buffer
(lines 229–242): each triangle contributes its six directed pairs, each
deduplicated on insertion. -/
def adjacencyOf (indices : List ℕ) : ℕ → List ℕ :=
  (triangleTriples indices).foldl
    (fun adj t =>
      adjInsert (adjInsert (adjInsert (adjInsert (adjInsert (adjInsert adj
        t.1 t.2.1) t.1 t.2.2) t.2.1 t.1) t.2.1 t.2.2) t.2.2 t.1) t.2.2 t.2.1)
    (fun _ => [])

/-- The bone-snapping displacement applied to the averaged position
(lines 270–304): nearest (unclamped) projection over all bones, ring snap
with spacing `gridStep * 0.8`, strength `0.2`, radius² `4.0`. -/
def boneSnap (bones : List BoneSegment) (gridStep : ℝ) (p : V3) : V3 :=
  let best := bones.foldl
    (fun (acc : Option (BoneSegment × ℝ × ℝ)) bone =>
      let t := vdot (vsub p bone.start) bone.dir
      let closest := vadd bone.start (vsmul t bone.dir)
      let dSq := vlengthSq (vsub p closest)
      match acc with
      | none => some (bone, t, dSq)
      | some a => if dSq < a.2.2 then some (bone, t, dSq) else acc)
    none
  match best with
  | none => p
  | some (bone, t, dSq) =>
    if dSq < 4.0 then
      let ringSpacing := gridStep * 0.8
      let snappedT := ((round (t / ringSpacing) : ℤ) : ℝ) * ringSpacing
      let shift := (snappedT - t) * 0.2
      vadd p (vsmul shift bone.dir)
    else p

/-- The forward-difference probe step of the refiner (`const eps = 0.001`). -/
def refineEps : ℝ := 0.001

/-- The per-vertex update of one relaxation iteration (lines 256–317): move
to the plain neighbour average, optionally bone-snap, then step along the
negated normalized forward-difference gradient by the SDF value. -/
def relaxVertex (f : V3 → ℝ) (bones : List BoneSegment) (gridStep : ℝ)
    (adj : ℕ → List ℕ) (cur : List V3) (i : ℕ) : V3 :=
  let neighbors := adj i
  if neighbors = [] then cur.getD i ⟨0, 0, 0⟩
  else
    let avg := vdivScalar
      (neighbors.foldl (fun acc j => vadd acc (cur.getD j ⟨0, 0, 0⟩)) ⟨0, 0, 0⟩)
      (neighbors.length : ℝ)
    let p1 := if bones.isEmpty then avg else boneSnap bones gridStep avg
    let dist := f p1
    let d1 := f ⟨p1.x + refineEps, p1.y, p1.z⟩
    let d2 := f ⟨p1.x, p1.y + refineEps, p1.z⟩
    let d3 := f ⟨p1.x, p1.y, p1.z + refineEps⟩
    let grad := vnormalize ⟨d1 - dist, d2 - dist, d3 - dist⟩
    vsub p1 (vsmul dist grad)

/-- One full Jacobi pass over the vertex buffer (a skipped vertex — one with
no neighbours — keeps its current position, as `nextPositions` retains it). -/
def relaxPass (f : V3 → ℝ) (bones : List BoneSegment) (gridStep : ℝ)
    (adj : ℕ → List ℕ) (cur : List V3) : List V3 :=
  (List.range cur.length).map (relaxVertex f bones gridStep adj cur)

/-- The iteration loop `for (iter = 0; iter < iterations; iter++)`. -/
def refineIter (f : V3 → ℝ) (bones : List BoneSegment) (gridStep : ℝ)
    (adj : ℕ → List ℕ) : ℕ → List V3 → List V3
  | 0, cur => cur
  | n + 1, cur => refineIter f bones gridStep adj n (relaxPass f bones gridStep adj cur)

/-- `const iterations = 8` (line 244). -/
def refineIterations : ℕ := 8

/-- The position buffer produced by `refineMesh` from a mesh with vertex
positions `positions` and triangle index buffer `indices` (the mesher always
installs an index buffer, so the `!indexAttribute` early-out never fires on
its meshes). -/
def refineMeshPositions (positions : List V3) (indices : List ℕ)
    (f : V3 → ℝ) (bones : List BoneSegment) (gridStep : ℝ) : List V3 :=
  refineIter f bones gridStep (adjacencyOf indices) refineIterations positions

-- ## The full mesher

/-- The buffers of the `THREE.BufferGeometry` returned by
`generateIsosurfaceGeometry` (position attribute, triangle index, and the
wireframe index buffer which shares the position buffer). -/
structure MeshData where
  vertices : List ℝ
  indices : List ℕ
  wireframeIndices : List ℕ

/-- `new THREE.BufferGeometry()` with nothing set: all buffers empty. -/
def emptyMeshData : MeshData := ⟨[], [], []⟩

/-- Regroup a flat coordinate array into vectors (triples). -/
def v3ListOfFlat : List ℝ → List V3
  | x :: y :: z :: rest => ⟨x, y, z⟩ :: v3ListOfFlat rest
  | _ => []

/-- Flatten a vector list back into the coordinate array. -/
def flatOfV3List (l : List V3) : List ℝ :=
  l.flatMap fun v => [v.x, v.y, v.z]

/-- `generateIsosurfaceGeometry(meshes, resolution, smartRetopo,
blendStrength)` (lines 342–562). -/
def generateIsosurfaceGeometry (meshes : List MeshNode) (resolution : ℝ)
    (smartRetopo : Bool) (blendStrength : ℝ) : MeshData :=
  if meshes.length ≤ 1 then emptyMeshData
  else if (activeMeshesOf meshes).isEmpty then emptyMeshData
  else
    let verts := meshVerticesOf meshes resolution blendStrength
    let tris := meshTriIndicesOf meshes resolution blendStrength
    let wires := meshWireIndicesOf meshes resolution blendStrength
    if smartRetopo then
      let refined := refineMeshPositions (v3ListOfFlat verts) tris
        (sdfEvaluate meshes blendStrength) (extractBones meshes)
        (avgStepOf meshes resolution blendStrength)
      ⟨flatOfV3List refined, tris, wires⟩
    else ⟨verts, tris, wires⟩

-- ## Claim C2

/-- C2 (counterexample): the claim says `blendStrength = 0` returns exactly
`min(a, b)` / `max(a, b)`.  In fact the kernel computes
`h = max(0 − |a−b|, 0) / 0 = 0 / 0 = NaN`, which propagates: at
`a = 0, b = 1, k = 0` both operators return NaN, not `min = 0` / `max = 1`. -/
theorem claim_C2_counterexample :
    jsmin (JSNum.fin 0) (JSNum.fin 1) (JSNum.fin 0) = JSNum.nan ∧
    jsmax (JSNum.fin 0) (JSNum.fin 1) (JSNum.fin 0) = JSNum.nan ∧
    jsmin (JSNum.fin 0) (JSNum.fin 1) (JSNum.fin 0) ≠
      JSNum.jmin (JSNum.fin 0) (JSNum.fin 1) ∧
    jsmax (JSNum.fin 0) (JSNum.fin 1) (JSNum.fin 0) ≠
      JSNum.jmax (JSNum.fin 0) (JSNum.fin 1) := by
  have habs : max ((0 : ℚ) - |0 - 1|) 0 = 0 := by norm_num
  have hmin : jsmin (JSNum.fin 0) (JSNum.fin 1) (JSNum.fin 0) = JSNum.nan := by
    simp [jsmin, JSNum.jsub, JSNum.jabs, JSNum.jmax, JSNum.jmin, JSNum.jdiv,
      JSNum.jmul, habs]
  have hmax : jsmax (JSNum.fin 0) (JSNum.fin 1) (JSNum.fin 0) = JSNum.nan := by
    simp [jsmax, JSNum.jsub, JSNum.jabs, JSNum.jmax, JSNum.jmin, JSNum.jdiv,
      JSNum.jmul, JSNum.jadd, habs]
  refine ⟨hmin, hmax, ?_, ?_⟩
  · rw [hmin]; simp [JSNum.jmin]
  · rw [hmax]; simp [JSNum.jmax]

/-- C2 (amended): with `blendStrength = 0` the smooth operators return NaN
for every pair of finite inputs (the kernel divides `0 / 0`); the exact hard
`min`/`max` values are produced whenever `0 < k ≤ |a − b|` (the kernel is
exactly zero there), so the hard boolean degenerates to the limit `k → 0`
rather than to `k = 0` itself. -/
theorem claim_C2_theorem (a b : ℚ) :
    jsmin (JSNum.fin a) (JSNum.fin b) (JSNum.fin 0) = JSNum.nan ∧
    jsmax (JSNum.fin a) (JSNum.fin b) (JSNum.fin 0) = JSNum.nan ∧
    ∀ k : ℚ, 0 < k → k ≤ |a - b| →
      jsmin (JSNum.fin a) (JSNum.fin b) (JSNum.fin k) =
        JSNum.jmin (JSNum.fin a) (JSNum.fin b) ∧
      jsmax (JSNum.fin a) (JSNum.fin b) (JSNum.fin k) =
        JSNum.jmax (JSNum.fin a) (JSNum.fin b) := by
  have habs : max (0 - |a - b|) 0 = 0 := by
    apply max_eq_right
    simp [abs_nonneg]
  refine ⟨?_, ?_, ?_⟩
  · simp [jsmin, JSNum.jsub, JSNum.jabs, JSNum.jmax, JSNum.jmin, JSNum.jdiv,
      JSNum.jmul, habs]
  · simp [jsmax, JSNum.jsub, JSNum.jabs, JSNum.jmax, JSNum.jmin, JSNum.jdiv,
      JSNum.jmul, JSNum.jadd, habs]
  · intro k hk hkle
    have hmax : max (k - |a - b|) 0 = 0 := by
      apply max_eq_right
      linarith
    have hkne : k ≠ 0 := ne_of_gt hk
    constructor
    · simp [jsmin, JSNum.jsub, JSNum.jabs, JSNum.jmax, JSNum.jmin, JSNum.jdiv,
        JSNum.jmul, hmax, hkne]
    · simp [jsmax, JSNum.jsub, JSNum.jabs, JSNum.jmax, JSNum.jmin, JSNum.jdiv,
        JSNum.jmul, JSNum.jadd, hmax, hkne]

/-- C2 (witness): the amended theorem applied at `a = 3, b = 1` with `k = 0`
and with `k = 2` (`0 < 2 ≤ |3 − 1|`). -/
theorem claim_C2_witness :
    jsmin (JSNum.fin 3) (JSNum.fin 1) (JSNum.fin 0) = JSNum.nan ∧
    jsmin (JSNum.fin 3) (JSNum.fin 1) (JSNum.fin 2) =
      JSNum.jmin (JSNum.fin 3) (JSNum.fin 1) := by
  refine ⟨(claim_C2_theorem 3 1).1, ?_⟩
  exact ((claim_C2_theorem 3 1).2.2 2 (by norm_num) (by norm_num)).1

-- ## Claim C6

/-- C6 (counterexample): the claim says the per-axis cell count is
`clamp(floor(resolution × 4), 2, 128)` and in particular never below 2.  The
code applies no lower clamp: at `resolution = 0.3` it yields
`min(⌊1.2⌋, 128) = 1`, below the claimed minimum of 2. -/
theorem claim_C6_counterexample :
    gridResOf 0.3 = 1 ∧ gridResClamped 0.3 = 2 ∧
    gridResOf 0.3 ≠ gridResClamped 0.3 := by
  have h : ⌊(0.3 : ℝ) * 4⌋ = 1 := by
    rw [Int.floor_eq_iff]
    norm_num
  refine ⟨?_, ?_, ?_⟩ <;> simp [gridResOf, gridResClamped, h]

/-- C6 (amended): the per-axis cell count is `min(floor(resolution × 4), 128)`
— capped above by 128, and at least 2 whenever `resolution ≥ 1/2`, but with
no lower clamp (so it drops below 2 for `resolution < 1/2`, see the
counterexample). -/
theorem claim_C6_theorem (resolution : ℝ) :
    gridResOf resolution ≤ 128 ∧
    (1 / 2 ≤ resolution → 2 ≤ gridResOf resolution) := by
  constructor
  · exact min_le_right _ _
  · intro h
    have : (2 : ℤ) ≤ ⌊resolution * 4⌋ := by
      rw [Int.le_floor]
      push_cast
      linarith
    simp only [gridResOf, le_min_iff]
    exact ⟨this, by norm_num⟩

/-- C6 (witness): the amended theorem at `resolution = 3`
(`gridRes = 12` lies in `[2, 128]`). -/
theorem claim_C6_witness :
    gridResOf 3 ≤ 128 ∧ 2 ≤ gridResOf 3 :=
  ⟨(claim_C6_theorem 3).1, (claim_C6_theorem 3).2 (by norm_num)⟩

-- ## Claim C9: the pipeline never reads the `visible` flag

/-- Overwrite each node's `visible` flag by an arbitrary function, leaving
every other attribute unchanged. -/
def setVisible (f : MeshNode → Bool) (m : MeshNode) : MeshNode :=
  { m with visible := f m }

/-- `find?` through a map that preserves the tested attribute. -/
theorem find?_map_pres {α β : Type} (g : α → β) (p : β → Bool) (q : α → Bool)
    (hpq : ∀ a, p (g a) = q a) :
    ∀ l : List α, (l.map g).find? p = (l.find? q).map g := by
  intro l
  induction l with
  | nil => rfl
  | cons a l ih =>
    simp only [List.map_cons, List.find?_cons, hpq a]
    by_cases h : q a = true
    · simp [h]
    · simp only [Bool.not_eq_true] at h
      simp [h, ih]

/-- Node lookup is unchanged by visibility rewrites. -/
theorem findNode_setVisible (meshes : List MeshNode) (f : MeshNode → Bool)
    (id : String) :
    findNode (meshes.map (setVisible f)) id =
      (findNode meshes id).map (setVisible f) := by
  unfold findNode
  rw [← List.map_reverse]
  exact find?_map_pres (setVisible f) _ _ (fun a => rfl) meshes.reverse

/-- The local matrix ignores visibility. -/
theorem localMatrixOf_setVisible (f : MeshNode → Bool) (m : MeshNode) :
    localMatrixOf (setVisible f m) = localMatrixOf m := rfl

/-- The evaluator's world-matrix recursion ignores visibility. -/
theorem getWorldMatrixFuel_setVisible (meshes : List MeshNode)
    (f : MeshNode → Bool) :
    ∀ fuel id, getWorldMatrixFuel (meshes.map (setVisible f)) fuel id =
      getWorldMatrixFuel meshes fuel id := by
  intro fuel
  induction fuel with
  | zero => intro id; rfl
  | succ n ih =>
    intro id
    rw [getWorldMatrixFuel, getWorldMatrixFuel, findNode_setVisible]
    cases hf : findNode meshes id with
    | none => rfl
    | some mesh =>
      simp only [Option.map_some']
      cases hp : mesh.parentId with
      | none => simp [setVisible, hp, localMatrixOf]
      | some pid =>
        simp only [setVisible, hp, findNode_setVisible, Option.isSome_map']
        by_cases hhas : (findNode meshes pid).isSome
        · simp [hhas, ih, localMatrixOf]
        · simp [hhas, localMatrixOf]

/-- The total evaluator world matrix ignores visibility. -/
theorem getWorldMatrix_setVisible (meshes : List MeshNode)
    (f : MeshNode → Bool) (id : String) :
    getWorldMatrix (meshes.map (setVisible f)) id = getWorldMatrix meshes id := by
  unfold getWorldMatrix
  rw [List.length_map, getWorldMatrixFuel_setVisible]

/-- The active-mesh filter commutes with visibility rewrites. -/
theorem activeMeshesOf_setVisible (meshes : List MeshNode)
    (f : MeshNode → Bool) :
    activeMeshesOf (meshes.map (setVisible f)) =
      (activeMeshesOf meshes).map (setVisible f) := by
  unfold activeMeshesOf
  induction meshes with
  | nil => rfl
  | cons a l ih =>
    simp only [List.map_cons, List.filter_cons]
    by_cases h : (a.id != rootId) = true
    · have h2 : ((setVisible f a).id != rootId) = true := h
      simp [h, h2, ih]
    · have h2 : ((setVisible f a).id != rootId) = false := by
        simpa using h
      simp only [Bool.not_eq_true] at h
      simp [h, h2, ih]

/-- The precomputed evaluator items ignore visibility. -/
theorem buildItems_setVisible (meshes : List MeshNode) (f : MeshNode → Bool) :
    buildItems (meshes.map (setVisible f)) = buildItems meshes := by
  unfold buildItems
  rw [activeMeshesOf_setVisible, List.map_map]
  apply List.map_congr_left
  intro m _
  simp only [Function.comp_apply, setVisible]
  rw [show (⟨m.id, m.type, m.operation, m.position, m.rotation, m.scale,
      m.parentId, f m⟩ : MeshNode).id = m.id from rfl]
  rw [getWorldMatrix_setVisible]

/-- C9-core: the scalar field is unchanged by visibility rewrites. -/
theorem sdfEvaluate_setVisible (meshes : List MeshNode) (f : MeshNode → Bool)
    (blendStrength : ℝ) (pos : V3) :
    sdfEvaluate (meshes.map (setVisible f)) blendStrength pos =
      sdfEvaluate meshes blendStrength pos := by
  unfold sdfEvaluate
  rw [buildItems_setVisible]

/-- The mesher's world-matrix recursion ignores visibility. -/
theorem getWorldMatrixMesherFuel_setVisible (meshes : List MeshNode)
    (f : MeshNode → Bool) :
    ∀ fuel id, getWorldMatrixMesherFuel (meshes.map (setVisible f)) fuel id =
      getWorldMatrixMesherFuel meshes fuel id := by
  intro fuel
  induction fuel with
  | zero => intro id; rfl
  | succ n ih =>
    intro id
    rw [getWorldMatrixMesherFuel, getWorldMatrixMesherFuel, findNode_setVisible]
    cases hf : findNode meshes id with
    | none => rfl
    | some mesh =>
      simp only [Option.map_some']
      cases hp : mesh.parentId with
      | none => simp [setVisible, hp, localMatrixOf]
      | some pid => simp [setVisible, hp, ih, localMatrixOf]

/-- The total mesher world matrix ignores visibility. -/
theorem getWorldMatrixMesher_setVisible (meshes : List MeshNode)
    (f : MeshNode → Bool) (id : String) :
    getWorldMatrixMesher (meshes.map (setVisible f)) id =
      getWorldMatrixMesher meshes id := by
  unfold getWorldMatrixMesher
  rw [List.length_map, getWorldMatrixMesherFuel_setVisible]

/-- The bounding box ignores visibility. -/
theorem boundsBoxOf_setVisible (meshes : List MeshNode) (f : MeshNode → Bool)
    (blendStrength : ℝ) :
    boundsBoxOf (meshes.map (setVisible f)) blendStrength =
      boundsBoxOf meshes blendStrength := by
  unfold boundsBoxOf
  rw [activeMeshesOf_setVisible, List.foldl_map]
  have hstep : (fun (acc : Option (V3 × V3)) (m : MeshNode) =>
      meshBoundContrib (meshes.map (setVisible f)) blendStrength acc
        (setVisible f m)) = meshBoundContrib meshes blendStrength := by
    funext acc m
    unfold meshBoundContrib
    rw [show (setVisible f m).id = m.id from rfl, getWorldMatrixMesher_setVisible]
  rw [hstep]

/-- Grid geometry (box minimum, raw and substituted step, average step)
ignores visibility. -/
theorem gridGeometry_setVisible (meshes : List MeshNode) (f : MeshNode → Bool)
    (resolution blendStrength : ℝ) :
    boxMinOf (meshes.map (setVisible f)) blendStrength =
      boxMinOf meshes blendStrength ∧
    stepOf (meshes.map (setVisible f)) resolution blendStrength =
      stepOf meshes resolution blendStrength ∧
    avgStepOf (meshes.map (setVisible f)) resolution blendStrength =
      avgStepOf meshes resolution blendStrength := by
  unfold boxMinOf stepOf avgStepOf stepRawOf boxSizeOf
  rw [boundsBoxOf_setVisible]
  exact ⟨rfl, rfl, rfl⟩

/-- The sampled grid values ignore visibility. -/
theorem gridValue_setVisible (meshes : List MeshNode) (f : MeshNode → Bool)
    (resolution blendStrength : ℝ) (x y z : ℕ) :
    gridValue (meshes.map (setVisible f)) resolution blendStrength x y z =
      gridValue meshes resolution blendStrength x y z := by
  unfold gridValue probeAt
  obtain ⟨h1, h2, _⟩ := gridGeometry_setVisible meshes f resolution blendStrength
  rw [h1, h2, sdfEvaluate_setVisible]

/-- The per-cell crossing data ignores visibility. -/
theorem cellCrossings_setVisible (meshes : List MeshNode) (f : MeshNode → Bool)
    (resolution blendStrength : ℝ) (c : ℕ × ℕ × ℕ) :
    cellCrossings (meshes.map (setVisible f)) resolution blendStrength c =
      cellCrossings meshes resolution blendStrength c := by
  obtain ⟨h1, h2, _⟩ := gridGeometry_setVisible meshes f resolution blendStrength
  unfold cellCrossings
  simp only [gridValue_setVisible, h1, h2]

/-- Cell activity and vertex data ignore visibility. -/
theorem activeCellsOf_setVisible (meshes : List MeshNode) (f : MeshNode → Bool)
    (resolution blendStrength : ℝ) :
    activeCellsOf (meshes.map (setVisible f)) resolution blendStrength =
      activeCellsOf meshes resolution blendStrength := by
  unfold activeCellsOf
  apply List.filter_congr
  intro c _
  have hcc : cellCount (meshes.map (setVisible f)) resolution blendStrength c =
      cellCount meshes resolution blendStrength c := by
    unfold cellCount
    rw [cellCrossings_setVisible]
  have hcm : cellMask (meshes.map (setVisible f)) resolution blendStrength c =
      cellMask meshes resolution blendStrength c := by
    unfold cellMask
    simp only [gridValue_setVisible]
  rw [decide_eq_decide]
  unfold cellActive
  rw [hcc, hcm]

/-- The quad emission of all three families ignores visibility. -/
theorem quadCallsOf_setVisible (meshes : List MeshNode) (f : MeshNode → Bool)
    (resolution blendStrength : ℝ) :
    quadCallsOf (meshes.map (setVisible f)) resolution blendStrength =
      quadCallsOf meshes resolution blendStrength := by
  have haq : ∀ c0 c1 c2 c3 flip,
      addQuad (meshes.map (setVisible f)) resolution blendStrength c0 c1 c2 c3 flip =
      addQuad meshes resolution blendStrength c0 c1 c2 c3 flip := by
    intro c0 c1 c2 c3 flip
    unfold addQuad cellVertIndex
    rw [activeCellsOf_setVisible]
  unfold quadCallsOf xQuadCalls yQuadCalls zQuadCalls
  simp only [gridValue_setVisible, haq]

/-- The extracted bone segments ignore visibility. -/
theorem extractBones_setVisible (meshes : List MeshNode) (f : MeshNode → Bool) :
    extractBones (meshes.map (setVisible f)) = extractBones meshes := by
  have hanc : ∀ fuel o, ancestorsFuel (meshes.map (setVisible f)) fuel o =
      (ancestorsFuel meshes fuel o).map (setVisible f) := by
    intro fuel
    induction fuel with
    | zero => intro o; rfl
    | succ n ih =>
      intro o
      cases o with
      | none => rfl
      | some cid =>
        rw [ancestorsFuel, ancestorsFuel, findNode_setVisible]
        cases findNode meshes cid with
        | none => rfl
        | some m => simp [setVisible, ih]
  have hwm : ∀ id, extractWorldMatrix (meshes.map (setVisible f)) id =
      extractWorldMatrix meshes id := by
    intro id
    unfold extractWorldMatrix
    rw [findNode_setVisible]
    cases findNode meshes id with
    | none => rfl
    | some mesh =>
      simp only [Option.map_some']
      cases hp : mesh.parentId with
      | none => simp [setVisible, hp, localMatrixOf]
      | some pid =>
        simp [setVisible, hp, List.length_map, hanc, List.foldl_map,
          localMatrixOf]
  unfold extractBones
  rw [List.flatMap_map]
  apply List.flatMap_congr
  intro m _
  simp only [Function.comp_apply]
  rw [show (setVisible f m).parentId = m.parentId from rfl]
  cases m.parentId with
  | none => rfl
  | some pid =>
    rw [show (setVisible f m).id = m.id from rfl]
    by_cases hid : m.id = rootId
    · simp [hid]
    · simp only [hid, if_false, findNode_setVisible]
      cases findNode meshes pid with
      | none => rfl
      | some parent =>
        simp only [Option.map_some']
        rw [show (setVisible f parent).id = parent.id from rfl]
        by_cases hpid : parent.id = rootId
        · simp [hpid]
        · simp only [hpid, if_false]
          unfold extractWorldPosition
          rw [hwm, hwm]

/-- C9: toggling any subset of `visible` flags — any rewrite of the node
list that changes only the `visible` attribute — leaves both the scalar
field built by `createSDFEvaluator` and the full mesh produced by
`generateIsosurfaceGeometry` identical: the core never reads visibility. -/
theorem claim_C9_theorem (meshes : List MeshNode) (f : MeshNode → Bool)
    (resolution blendStrength : ℝ) (smartRetopo : Bool) (pos : V3) :
    sdfEvaluate (meshes.map (setVisible f)) blendStrength pos =
      sdfEvaluate meshes blendStrength pos ∧
    generateIsosurfaceGeometry (meshes.map (setVisible f)) resolution
        smartRetopo blendStrength =
      generateIsosurfaceGeometry meshes resolution smartRetopo blendStrength := by
  refine ⟨sdfEvaluate_setVisible meshes f blendStrength pos, ?_⟩
  unfold generateIsosurfaceGeometry
  rw [List.length_map, activeMeshesOf_setVisible]
  have hverts : meshVerticesOf (meshes.map (setVisible f)) resolution
      blendStrength = meshVerticesOf meshes resolution blendStrength := by
    unfold meshVerticesOf
    rw [activeCellsOf_setVisible]
    apply List.flatMap_congr
    intro c _
    unfold cellVertex
    rw [cellCrossings_setVisible]
  have htris : meshTriIndicesOf (meshes.map (setVisible f)) resolution
      blendStrength = meshTriIndicesOf meshes resolution blendStrength := by
    unfold meshTriIndicesOf
    rw [quadCallsOf_setVisible]
  have hwires : meshWireIndicesOf (meshes.map (setVisible f)) resolution
      blendStrength = meshWireIndicesOf meshes resolution blendStrength := by
    unfold meshWireIndicesOf
    rw [quadCallsOf_setVisible]
  have havg := (gridGeometry_setVisible meshes f resolution blendStrength).2.2
  have hfield : sdfEvaluate (meshes.map (setVisible f)) blendStrength =
      sdfEvaluate meshes blendStrength := by
    funext q
    exact sdfEvaluate_setVisible meshes f blendStrength q
  have hie : (List.map (setVisible f) (activeMeshesOf meshes)).isEmpty =
      (activeMeshesOf meshes).isEmpty := by
    cases activeMeshesOf meshes <;> rfl
  simp only [hverts, htris, hwires, havg, hfield, extractBones_setVisible, hie]

-- ## Claim C10: every emitted index addresses an existing vertex

/-- A successful `findIdx?` returns a position inside the list. -/
theorem findIdx?_lt_length {α : Type} (p : α → Bool) :
    ∀ (l : List α) (i : ℕ), l.findIdx? p = some i → i < l.length := by
  intro l i h
  exact (List.findIdx?_eq_some_iff_findIdx_eq.mp h).1

/-- A recorded cell-vertex index addresses an emitted vertex. -/
theorem cellVertIndex_lt (meshes : List MeshNode) (resolution blendStrength : ℝ)
    (c : ℕ × ℕ × ℕ) (j : ℕ)
    (h : cellVertIndex meshes resolution blendStrength c = some j) :
    j < (activeCellsOf meshes resolution blendStrength).length :=
  findIdx?_lt_length _ _ _ h

/-- Every index appended by `addQuad` (to either buffer) addresses an
emitted vertex. -/
theorem addQuad_indices_lt (meshes : List MeshNode) (resolution blendStrength : ℝ)
    (c0 c1 c2 c3 : ℕ × ℕ × ℕ) (flip : Prop) (i : ℕ)
    (h : i ∈ (addQuad meshes resolution blendStrength c0 c1 c2 c3 flip).1 ∨
         i ∈ (addQuad meshes resolution blendStrength c0 c1 c2 c3 flip).2) :
    i < (activeCellsOf meshes resolution blendStrength).length := by
  unfold addQuad at h
  cases h0 : cellVertIndex meshes resolution blendStrength c0 with
  | none => simp [h0] at h
  | some v0 =>
  cases h1 : cellVertIndex meshes resolution blendStrength c1 with
  | none => simp [h0, h1] at h
  | some v1 =>
  cases h2 : cellVertIndex meshes resolution blendStrength c2 with
  | none => simp [h0, h1, h2] at h
  | some v2 =>
  cases h3 : cellVertIndex meshes resolution blendStrength c3 with
  | none => simp [h0, h1, h2, h3] at h
  | some v3 =>
  rw [h0, h1, h2, h3] at h
  have hi : i = v0 ∨ i = v1 ∨ i = v2 ∨ i = v3 := by
    by_cases hf : flip
    · simp only [hf, if_true] at h
      rcases h with h | h <;> simp at h <;> tauto
    · simp only [hf, if_false] at h
      rcases h with h | h <;> simp at h <;> tauto
  rcases hi with rfl | rfl | rfl | rfl
  · exact cellVertIndex_lt _ _ _ _ _ h0
  · exact cellVertIndex_lt _ _ _ _ _ h1
  · exact cellVertIndex_lt _ _ _ _ _ h2
  · exact cellVertIndex_lt _ _ _ _ _ h3

/-- Every quad-loop iteration contributes either an `addQuad` result or
nothing. -/
theorem quadCallsOf_mem (meshes : List MeshNode) (resolution blendStrength : ℝ)
    (q : List ℕ × List ℕ) (hq : q ∈ quadCallsOf meshes resolution blendStrength) :
    (∃ c0 c1 c2 c3 flip,
      q = addQuad meshes resolution blendStrength c0 c1 c2 c3 flip) ∨
    q = ([], []) := by
  unfold quadCallsOf xQuadCalls yQuadCalls zQuadCalls at hq
  simp only [List.mem_append, List.mem_flatMap, List.mem_map] at hq
  rcases hq with (⟨z, _, y, _, x, _, hx⟩ | ⟨z, _, y, _, x, _, hx⟩) |
    ⟨z, _, y, _, x, _, hx⟩ <;>
  · rw [← hx]
    split
    · exact Or.inl ⟨_, _, _, _, _, rfl⟩
    · exact Or.inr rfl

/-- Every index in either emitted buffer addresses an emitted vertex. -/
theorem emitted_indices_lt (meshes : List MeshNode) (resolution blendStrength : ℝ)
    (i : ℕ)
    (h : i ∈ meshTriIndicesOf meshes resolution blendStrength ∨
         i ∈ meshWireIndicesOf meshes resolution blendStrength) :
    i < (activeCellsOf meshes resolution blendStrength).length := by
  have key : ∀ q ∈ quadCallsOf meshes resolution blendStrength,
      (i ∈ q.1 ∨ i ∈ q.2) → i < (activeCellsOf meshes resolution blendStrength).length := by
    intro q hq hmem
    rcases quadCallsOf_mem meshes resolution blendStrength q hq with
      ⟨c0, c1, c2, c3, flip, rfl⟩ | rfl
    · exact addQuad_indices_lt meshes resolution blendStrength c0 c1 c2 c3 flip i hmem
    · rcases hmem with hmem | hmem <;> cases hmem
  rcases h with h | h
  · unfold meshTriIndicesOf at h
    rw [List.mem_flatMap] at h
    obtain ⟨q, hq, hi⟩ := h
    exact key q hq (Or.inl hi)
  · unfold meshWireIndicesOf at h
    rw [List.mem_flatMap] at h
    obtain ⟨q, hq, hi⟩ := h
    exact key q hq (Or.inr hi)

/-- Flattening triples the length. -/
theorem length_flatOfV3List (l : List V3) :
    (flatOfV3List l).length = 3 * l.length := by
  induction l with
  | nil => rfl
  | cons a l ih =>
    rw [show flatOfV3List (a :: l) = [a.x, a.y, a.z] ++ flatOfV3List l from rfl]
    rw [List.length_append, ih, List.length_cons]
    simp
    omega

/-- Regrouping a flattened vector list recovers it. -/
theorem v3ListOfFlat_flatOfV3List (l : List V3) :
    v3ListOfFlat (flatOfV3List l) = l := by
  induction l with
  | nil => rfl
  | cons a l ih =>
    simp only [flatOfV3List, List.flatMap_cons]
    rw [show ([a.x, a.y, a.z] ++ (l.flatMap fun v => [v.x, v.y, v.z])) =
      a.x :: a.y :: a.z :: flatOfV3List l from rfl]
    rw [v3ListOfFlat, ih]

/-- The vertex buffer is the flattened list of active-cell vertices. -/
theorem meshVerticesOf_eq (meshes : List MeshNode) (resolution blendStrength : ℝ) :
    meshVerticesOf meshes resolution blendStrength =
      flatOfV3List ((activeCellsOf meshes resolution blendStrength).map
        (cellVertex meshes resolution blendStrength)) := by
  unfold meshVerticesOf flatOfV3List
  rw [List.flatMap_map]

/-- A relaxation pass preserves the vertex count. -/
theorem length_relaxPass (f : V3 → ℝ) (bones : List BoneSegment) (gridStep : ℝ)
    (adj : ℕ → List ℕ) (cur : List V3) :
    (relaxPass f bones gridStep adj cur).length = cur.length := by
  simp [relaxPass]

/-- The refiner preserves the vertex count. -/
theorem length_refineIter (f : V3 → ℝ) (bones : List BoneSegment) (gridStep : ℝ)
    (adj : ℕ → List ℕ) :
    ∀ n cur, (refineIter f bones gridStep adj n cur).length = cur.length := by
  intro n
  induction n with
  | zero => intro cur; rfl
  | succ n ih =>
    intro cur
    rw [refineIter, ih, length_relaxPass]

/-- C10: every index emitted into the triangle index buffer and into the
wireframe index buffer refers to an existing vertex — its three coordinate
slots lie inside the shared position buffer (`3*i + 2 < |vertices|`), with
and without smart retopology: a quad contributes indices only when all four
adjacent active cells have a recorded vertex. -/
theorem claim_C10_theorem (meshes : List MeshNode) (resolution blendStrength : ℝ)
    (smartRetopo : Bool) (i : ℕ)
    (h : i ∈ (generateIsosurfaceGeometry meshes resolution smartRetopo
            blendStrength).indices ∨
         i ∈ (generateIsosurfaceGeometry meshes resolution smartRetopo
            blendStrength).wireframeIndices) :
    3 * i + 2 < (generateIsosurfaceGeometry meshes resolution smartRetopo
      blendStrength).vertices.length := by
  unfold generateIsosurfaceGeometry at h ⊢
  by_cases h1 : meshes.length ≤ 1
  · simp only [h1, if_true, emptyMeshData] at h
    rcases h with h | h <;> cases h
  · simp only [h1, if_false] at h ⊢
    by_cases h2 : (activeMeshesOf meshes).isEmpty
    · simp only [h2, if_true, emptyMeshData] at h
      rcases h with h | h <;> cases h
    · simp only [h2, Bool.false_eq_true, if_false] at h ⊢
      have hlt : i < (activeCellsOf meshes resolution blendStrength).length := by
        cases smartRetopo <;> simp only [Bool.false_eq_true, if_false, if_true] at h <;>
          exact emitted_indices_lt meshes resolution blendStrength i h
      have hvlen : (meshVerticesOf meshes resolution blendStrength).length =
          3 * (activeCellsOf meshes resolution blendStrength).length := by
        rw [meshVerticesOf_eq, length_flatOfV3List, List.length_map]
      cases smartRetopo
      · simp only [Bool.false_eq_true, if_false]
        rw [hvlen]
        omega
      · simp only [if_true]
        rw [refineMeshPositions, length_flatOfV3List, length_refineIter,
          meshVerticesOf_eq, v3ListOfFlat_flatOfV3List, List.length_map]
        omega

-- ## Claim C7

/-- The bare container node used to witness the container-only case. -/
def bareRootNode : MeshNode :=
  ⟨rootId, .sphere, .union, ⟨0, 0, 0⟩, ⟨0, 0, 0⟩, 1, none, true⟩

/-- C7: the mesher is total and returns the empty mesh (zero vertices, zero
indices, zero wireframe indices) for an empty node list, for any
single-node list (which covers a list holding only the container), and for
any list consisting solely of container nodes — never an error value. -/
theorem claim_C7_theorem (resolution blendStrength : ℝ) (smartRetopo : Bool) :
    generateIsosurfaceGeometry [] resolution smartRetopo blendStrength =
      emptyMeshData ∧
    (∀ node : MeshNode,
      generateIsosurfaceGeometry [node] resolution smartRetopo blendStrength =
        emptyMeshData) ∧
    (∀ meshes : List MeshNode, (∀ m ∈ meshes, m.id = rootId) →
      generateIsosurfaceGeometry meshes resolution smartRetopo blendStrength =
        emptyMeshData) := by
  refine ⟨?_, fun node => ?_, fun meshes hall => ?_⟩
  · simp [generateIsosurfaceGeometry]
  · simp [generateIsosurfaceGeometry]
  · have hempty : activeMeshesOf meshes = [] := by
      simp only [activeMeshesOf, List.filter_eq_nil_iff]
      intro m hm
      simp [hall m hm]
    by_cases hlen : meshes.length ≤ 1
    · simp [generateIsosurfaceGeometry, hlen]
    · simp [generateIsosurfaceGeometry, hlen, hempty]

/-- C7 (witness): the theorem applied to a concrete container-only list of
length 2 (so the second guard, not the length guard, fires). -/
theorem claim_C7_witness :
    generateIsosurfaceGeometry [bareRootNode, bareRootNode] 8 false 0.3 =
      emptyMeshData := by
  refine (claim_C7_theorem 8 0.3 false).2.2 [bareRootNode, bareRootNode] ?_
  intro m hm
  have hm2 : m = bareRootNode := by simpa using hm
  rw [hm2, bareRootNode]

-- ## Claim C5

/-- Concrete triangle mesh used to separate 8 from 10 relaxation
iterations: one triangle, all vertices mutually adjacent. -/
def triPositions : List V3 := [⟨1, 0, 0⟩, ⟨0, 0, 0⟩, ⟨0, 0, 0⟩]

/-- Index buffer of the concrete triangle. -/
def triIndices : List ℕ := [0, 1, 2]

/-- The identically-zero scalar field (every point is on the isosurface). -/
def zeroField : V3 → ℝ := fun _ => 0

/-- Normalizing the zero vector leaves it unchanged
(`divideScalar(length() || 1)`). -/
theorem vnormalize_zero : vnormalize ⟨0, 0, 0⟩ = ⟨0, 0, 0⟩ := by
  have h : vlength ⟨0, 0, 0⟩ = 0 := by
    simp [vlength, vlengthSq, Real.sqrt_eq_zero']
  simp [vnormalize, h, vdivScalar]

/-- Neighbour list of vertex 0 in the concrete triangle. -/
theorem adjacency_tri_0 : adjacencyOf triIndices 0 = [1, 2] := by
  norm_num [adjacencyOf, triIndices, triangleTriples, adjInsert]

/-- Neighbour list of vertex 1 in the concrete triangle. -/
theorem adjacency_tri_1 : adjacencyOf triIndices 1 = [0, 2] := by
  norm_num [adjacencyOf, triIndices, triangleTriples, adjInsert]

/-- Neighbour list of vertex 2 in the concrete triangle. -/
theorem adjacency_tri_2 : adjacencyOf triIndices 2 = [0, 1] := by
  norm_num [adjacencyOf, triIndices, triangleTriples, adjInsert]

/-- Under the zero field with no bones, the per-vertex update degenerates to
the plain neighbour average. -/
theorem relaxVertex_zeroField (adj : ℕ → List ℕ) (cur : List V3) (i : ℕ)
    (h : adj i ≠ []) :
    relaxVertex zeroField [] 1 adj cur i =
      vdivScalar
        ((adj i).foldl (fun acc j => vadd acc (cur.getD j ⟨0, 0, 0⟩)) ⟨0, 0, 0⟩)
        ((adj i).length : ℝ) := by
  simp only [relaxVertex, h, if_neg, List.isEmpty_nil, zeroField]
  simp [vnormalize_zero, vsmul, vsub]

/-- One relaxation pass on the concrete triangle under the zero field is the
pairwise averaging map. -/
theorem relaxPass_tri (a b c : V3) :
    relaxPass zeroField [] 1 (adjacencyOf triIndices) [a, b, c] =
      [vdivScalar (vadd (vadd ⟨0, 0, 0⟩ b) c) 2,
       vdivScalar (vadd (vadd ⟨0, 0, 0⟩ a) c) 2,
       vdivScalar (vadd (vadd ⟨0, 0, 0⟩ a) b) 2] := by
  have h0 := relaxVertex_zeroField (adjacencyOf triIndices) [a, b, c] 0
    (by rw [adjacency_tri_0]; simp)
  have h1 := relaxVertex_zeroField (adjacencyOf triIndices) [a, b, c] 1
    (by rw [adjacency_tri_1]; simp)
  have h2 := relaxVertex_zeroField (adjacencyOf triIndices) [a, b, c] 2
    (by rw [adjacency_tri_2]; simp)
  rw [adjacency_tri_0] at h0
  rw [adjacency_tri_1] at h1
  rw [adjacency_tri_2] at h2
  simp only [relaxPass, List.length_cons, List.length_nil, List.range_succ]
  simp [h0, h1, h2, List.getD]

/-- C5 (counterexample): the refiner performs 8, not 10, iterations: on the
concrete one-triangle mesh under the zero field the produced positions
differ from the result of 10 relaxation iterations (vertex 0 ends at
x = 43/128 after the 8 iterations actually performed, but 10 iterations
would put it at x = 171/512). -/
theorem claim_C5_counterexample :
    refineMeshPositions triPositions triIndices zeroField [] 1 ≠
      refineIter zeroField [] 1 (adjacencyOf triIndices) 10 triPositions := by
  have h8 : refineMeshPositions triPositions triIndices zeroField [] 1 =
      [⟨43/128, 0, 0⟩, ⟨85/256, 0, 0⟩, ⟨85/256, 0, 0⟩] := by
    simp only [refineMeshPositions, refineIterations, refineIter, triPositions,
      relaxPass_tri]
    norm_num [relaxPass_tri, vadd, vdivScalar]
  have h10 : refineIter zeroField [] 1 (adjacencyOf triIndices) 10 triPositions =
      [⟨171/512, 0, 0⟩, ⟨341/1024, 0, 0⟩, ⟨341/1024, 0, 0⟩] := by
    simp only [refineIter, triPositions, relaxPass_tri]
    norm_num [relaxPass_tri, vadd, vdivScalar]
  rw [h8, h10]
  intro hcontra
  have := List.head_eq_of_cons_eq hcontra
  have hx : (43 / 128 : ℝ) = 171 / 512 := congrArg V3.x this
  norm_num at hx

/-- C5 (amended): the refiner always performs exactly **8** relaxation
iterations (`const iterations = 8`): its output is the 8th Jacobi iterate of
one relaxation pass, for every mesh, field, bone list and grid step. -/
theorem claim_C5_theorem (positions : List V3) (indices : List ℕ)
    (f : V3 → ℝ) (bones : List BoneSegment) (gridStep : ℝ) :
    refineMeshPositions positions indices f bones gridStep =
      (relaxPass f bones gridStep (adjacencyOf indices))^[8] positions := by
  have hgen : ∀ n cur, refineIter f bones gridStep (adjacencyOf indices) n cur =
      (relaxPass f bones gridStep (adjacencyOf indices))^[n] cur := by
    intro n
    induction n with
    | zero => intro cur; rfl
    | succ n ih =>
      intro cur
      rw [refineIter, ih, Function.iterate_succ_apply]
  exact hgen 8 positions

-- ## Claim C4

/-- The field `f(p) = p.x` (plane isosurface), used to exhibit a purely
normal displacement. -/
def fieldX : V3 → ℝ := fun p => p.x

/-- The code's own surface-normal estimator (normalized forward differences
with step `eps = 0.001`) evaluated at a point. -/
def estimatedNormal (f : V3 → ℝ) (p : V3) : V3 :=
  vnormalize ⟨f ⟨p.x + refineEps, p.y, p.z⟩ - f p,
              f ⟨p.x, p.y + refineEps, p.z⟩ - f p,
              f ⟨p.x, p.y, p.z + refineEps⟩ - f p⟩

/-- The property claim C4 asserts of the relaxation: every vertex with at
least one neighbour is displaced only tangentially — the displacement of one
relaxation pass is orthogonal to the estimated surface normal at the
vertex's current position. -/
def tangentialOnlyProp (f : V3 → ℝ) (bones : List BoneSegment)
    (gridStep : ℝ) (positions : List V3) (indices : List ℕ) : Prop :=
  ∀ i < positions.length, adjacencyOf indices i ≠ [] →
    vdot
      (vsub ((relaxPass f bones gridStep (adjacencyOf indices) positions).getD i
          ⟨0, 0, 0⟩)
        (positions.getD i ⟨0, 0, 0⟩))
      (estimatedNormal f (positions.getD i ⟨0, 0, 0⟩)) = 0

/-- Positions of the concrete triangle on the plane `x = 1` used against C4. -/
def c4Positions : List V3 := [⟨1, 0, 0⟩, ⟨1, 1, 0⟩, ⟨1, 0, 1⟩]

/-- Normalizing the vector `(1/1000, 0, 0)` gives the unit x vector. -/
theorem vnormalize_eps :
    vnormalize ⟨1/1000, 0, 0⟩ = (⟨1, 0, 0⟩ : V3) := by
  have hsq : vlengthSq ⟨1/1000, 0, 0⟩ = ((1/1000 : ℝ))^2 := by
    norm_num [vlengthSq, sq]
  have h : vlength ⟨1/1000, 0, 0⟩ = 1/1000 := by
    rw [vlength, hsq, Real.sqrt_sq (by norm_num)]
  rw [vnormalize, h]
  norm_num [vdivScalar]

/-- On a vertex with neighbours and no bones, the per-vertex update is:
replace by the neighbour average, then step against the estimated normal at
that average by the field value there. -/
theorem relaxVertex_noBones (f : V3 → ℝ) (gridStep : ℝ) (adj : ℕ → List ℕ)
    (cur : List V3) (i : ℕ) (h : adj i ≠ []) :
    relaxVertex f [] gridStep adj cur i =
      vsub (vdivScalar
          ((adj i).foldl (fun acc j => vadd acc (cur.getD j ⟨0, 0, 0⟩)) ⟨0, 0, 0⟩)
          ((adj i).length : ℝ))
        (vsmul
          (f (vdivScalar
            ((adj i).foldl (fun acc j => vadd acc (cur.getD j ⟨0, 0, 0⟩)) ⟨0, 0, 0⟩)
            ((adj i).length : ℝ)))
          (estimatedNormal f (vdivScalar
            ((adj i).foldl (fun acc j => vadd acc (cur.getD j ⟨0, 0, 0⟩)) ⟨0, 0, 0⟩)
            ((adj i).length : ℝ)))) := by
  simp only [relaxVertex, h, if_neg, List.isEmpty_nil, estimatedNormal]
  simp

/-- C4 (counterexample): with the plane field `f(p) = p.x`, no bones, and the
triangle at `x = 1`, one relaxation pass moves vertex 0 from `(1, 0, 0)` to
`(0, 1/2, 1/2)`: the displacement `(-1, 1/2, 1/2)` has dot product `-1 ≠ 0`
with the estimated normal `(1, 0, 0)` — the update is *not* restricted to
the tangential component (and no 0.55 scaling is applied). -/
theorem claim_C4_counterexample :
    ¬ tangentialOnlyProp fieldX [] 1 c4Positions triIndices := by
  intro hprop
  have hadj : adjacencyOf triIndices 0 ≠ [] := by rw [adjacency_tri_0]; simp
  have h := hprop 0 (by simp [c4Positions]) hadj
  have havg : vdivScalar
      ((adjacencyOf triIndices 0).foldl
        (fun acc j => vadd acc (c4Positions.getD j ⟨0, 0, 0⟩)) ⟨0, 0, 0⟩)
      ((adjacencyOf triIndices 0).length : ℝ) = ⟨1, 1/2, 1/2⟩ := by
    rw [adjacency_tri_0]
    norm_num [c4Positions, List.getD, vadd, vdivScalar]
  have hnorm1 : estimatedNormal fieldX (⟨1, 1/2, 1/2⟩ : V3) = ⟨1, 0, 0⟩ := by
    have h2 : estimatedNormal fieldX (⟨1, 1/2, 1/2⟩ : V3) =
        vnormalize ⟨1/1000, 0, 0⟩ := by
      simp only [estimatedNormal, fieldX, refineEps]
      norm_num
    rw [h2, vnormalize_eps]
  have hr : relaxVertex fieldX [] 1 (adjacencyOf triIndices) c4Positions 0 =
      ⟨0, 1/2, 1/2⟩ := by
    rw [relaxVertex_noBones fieldX 1 (adjacencyOf triIndices) c4Positions 0 hadj,
      havg, hnorm1]
    norm_num [fieldX, vsub, vsmul]
  have hpass : (relaxPass fieldX [] 1 (adjacencyOf triIndices) c4Positions).getD 0
      ⟨0, 0, 0⟩ = ⟨0, 1/2, 1/2⟩ := by
    have hlen3 : c4Positions.length = 3 := by simp [c4Positions]
    rw [relaxPass, hlen3]
    simp only [List.range_succ, List.range_zero]
    simp [hr]
  rw [hpass] at h
  have hget : c4Positions.getD 0 ⟨0, 0, 0⟩ = ⟨1, 0, 0⟩ := by
    simp [c4Positions]
  rw [hget] at h
  have hnorm0 : estimatedNormal fieldX (⟨1, 0, 0⟩ : V3) = ⟨1, 0, 0⟩ := by
    have h2 : estimatedNormal fieldX (⟨1, 0, 0⟩ : V3) =
        vnormalize ⟨1/1000, 0, 0⟩ := by
      simp only [estimatedNormal, fieldX, refineEps]
      norm_num
    rw [h2, vnormalize_eps]
  rw [hnorm0] at h
  norm_num [vsub, vdot] at h

/-- C4 (amended): in each relaxation iteration a vertex with at least one
neighbour is **replaced** by the unweighted average of its neighbours (no
tangential projection and no 0.55 scaling), then moved against the
normalized forward-difference gradient — estimated at the averaged
position, not the vertex's current position — by the full field value
there; displacement along the estimated normal is therefore not prevented. -/
theorem claim_C4_theorem (f : V3 → ℝ) (gridStep : ℝ) (adj : ℕ → List ℕ)
    (cur : List V3) (i : ℕ) (h : adj i ≠ []) :
    relaxVertex f [] gridStep adj cur i =
      vsub (vdivScalar
          ((adj i).foldl (fun acc j => vadd acc (cur.getD j ⟨0, 0, 0⟩)) ⟨0, 0, 0⟩)
          ((adj i).length : ℝ))
        (vsmul
          (f (vdivScalar
            ((adj i).foldl (fun acc j => vadd acc (cur.getD j ⟨0, 0, 0⟩)) ⟨0, 0, 0⟩)
            ((adj i).length : ℝ)))
          (estimatedNormal f (vdivScalar
            ((adj i).foldl (fun acc j => vadd acc (cur.getD j ⟨0, 0, 0⟩)) ⟨0, 0, 0⟩)
            ((adj i).length : ℝ)))) :=
  relaxVertex_noBones f gridStep adj cur i h

/-- C4 (witness): the amended theorem at the concrete triangle instance
(vertex 0 is sent to `(0, 1/2, 1/2)`, a displacement with a −1 component
along the estimated normal). -/
theorem claim_C4_witness :
    relaxVertex fieldX [] 1 (adjacencyOf triIndices) c4Positions 0 =
      ⟨0, 1/2, 1/2⟩ := by
  rw [claim_C4_theorem fieldX 1 (adjacencyOf triIndices) c4Positions 0
    (by rw [adjacency_tri_0]; simp)]
  rw [adjacency_tri_0]
  have havg : vdivScalar
      (([1, 2] : List ℕ).foldl
        (fun acc j => vadd acc (c4Positions.getD j ⟨0, 0, 0⟩)) ⟨0, 0, 0⟩)
      (([1, 2] : List ℕ).length : ℝ) = ⟨1, 1/2, 1/2⟩ := by
    norm_num [c4Positions, List.getD, vadd, vdivScalar]
  rw [havg]
  have hnorm1 : estimatedNormal fieldX (⟨1, 1/2, 1/2⟩ : V3) = ⟨1, 0, 0⟩ := by
    have h2 : estimatedNormal fieldX (⟨1, 1/2, 1/2⟩ : V3) =
        vnormalize ⟨1/1000, 0, 0⟩ := by
      simp only [estimatedNormal, fieldX, refineEps]
      norm_num
    rw [h2, vnormalize_eps]
  rw [hnorm1]
  norm_num [fieldX, vsub, vsmul]

-- ## A fully evaluated concrete scene: one unit cube at the origin

/-- A unit cube at the origin (no rotation, unit scale, no parent). -/
def cubeNode : MeshNode :=
  ⟨"CUBE", .cube, .union, ⟨0, 0, 0⟩, ⟨0, 0, 0⟩, 1, none, true⟩

/-- The concrete scene `[container, cube]`. -/
def cubeScene : List MeshNode := [bareRootNode, cubeNode]

/-- The cube's local matrix is the identity. -/
theorem localMatrix_cube : localMatrixOf cubeNode = idM4 := by
  simp only [localMatrixOf, cubeNode, composeTRS, quatFromEuler, m4composeQ]
  norm_num [Real.cos_zero, Real.sin_zero, idM4]

/-- Lookup of the cube node. -/
theorem findNode_cube : findNode cubeScene "CUBE" = some cubeNode := by
  simp [findNode, cubeScene, List.find?, cubeNode, bareRootNode, rootId]

/-- The active meshes of the concrete scene. -/
theorem activeMeshes_cube : activeMeshesOf cubeScene = [cubeNode] := by
  simp [activeMeshesOf, cubeScene, cubeNode, bareRootNode, rootId]

/-- The mesher world matrix of the cube is the identity. -/
theorem worldMatrixMesher_cube :
    getWorldMatrixMesher cubeScene "CUBE" = idM4 := by
  show (getWorldMatrixMesherFuel cubeScene (3 + 1) "CUBE").getD idM4 = idM4
  simp only [getWorldMatrixMesherFuel, findNode_cube,
    show cubeNode.parentId = none from rfl, localMatrix_cube, Option.getD_some]

/-- The evaluator world matrix of the cube is the identity. -/
theorem worldMatrix_cube : getWorldMatrix cubeScene "CUBE" = idM4 := by
  show (getWorldMatrixFuel cubeScene (2 + 1) "CUBE").getD idM4 = idM4
  simp only [getWorldMatrixFuel, findNode_cube,
    show cubeNode.parentId = none from rfl, localMatrix_cube, Option.getD_some]

/-- Determinant of the identity matrix. -/
theorem m4det_id : m4det idM4 = 1 := by
  norm_num [m4det, m4t11, m4t12, m4t13, m4t14, idM4]

/-- The identity matrix is its own inverse under the embedded `invert`. -/
theorem m4invert_id : m4invert idM4 = idM4 := by
  simp only [m4invert, m4det_id]
  norm_num [m4t11, m4t12, m4t13, m4t14, idM4]

/-- Decomposed scale of the identity matrix. -/
theorem decomposeScale_id : decomposeScale idM4 = ⟨1, 1, 1⟩ := by
  simp only [decomposeScale, m4det_id]
  norm_num [idM4, vlength, vlengthSq, Real.sqrt_one]

/-- Applying the identity matrix moves nothing. -/
theorem applyM4_id (p : V3) : applyM4 idM4 p = p := by
  simp [applyM4, idM4]

/-- The concrete scene's scalar field is the unit-cube distance. -/
theorem sdfEvaluate_cube (p : V3) :
    sdfEvaluate cubeScene (3/10) p = sdBox p ⟨0.5, 0.5, 0.5⟩ := by
  have hitems : buildItems cubeScene =
      [⟨.cube, .union, idM4, 1⟩] := by
    unfold buildItems
    rw [activeMeshes_cube]
    simp only [List.map_cons, List.map_nil]
    rw [show cubeNode.id = "CUBE" from rfl, worldMatrix_cube, m4invert_id,
      decomposeScale_id]
    norm_num [cubeNode]
  unfold sdfEvaluate
  rw [hitems]
  simp only [List.foldl_cons, List.foldl_nil, sdfCombineStep]
  simp [applyM4_id, evalPrimitive]

/-- The bounding box of the concrete scene:
`±(1.5·1 + 0.3)` then `expandByScalar(1)` gives `[-2.8, 2.8]³`. -/
theorem boundsBox_cube :
    boundsBoxOf cubeScene (3/10) =
      some (⟨-(14/5), -(14/5), -(14/5)⟩, ⟨14/5, 14/5, 14/5⟩) := by
  unfold boundsBoxOf
  rw [activeMeshes_cube]
  simp only [List.foldl_cons, List.foldl_nil]
  unfold meshBoundContrib
  dsimp only
  rw [show cubeNode.id = "CUBE" from rfl, worldMatrixMesher_cube,
    decomposeScale_id]
  simp only [matrixPosition, idM4, expandByPoint, vaddScalar, vsubScalar,
    Option.map_some']
  norm_num [vmin, vmax, min_def, max_def]

/-- `gridRes` at the concrete resolution `1/2`. -/
theorem gridRes_half : gridResOf (1/2) = 2 := by
  unfold gridResOf
  rw [show (1/2 : ℝ) * 4 = ((2 : ℤ) : ℝ) by norm_num, Int.floor_intCast]
  rfl

/-- Cell count at the concrete resolution. -/
theorem nCells_half : nCellsOf (1/2) = 2 := by
  rw [nCellsOf, gridRes_half]
  rfl

/-- The raw grid step of the concrete scene (`5.6 / 2` per axis). -/
theorem stepRaw_cube :
    stepRawOf cubeScene (1/2) (3/10) = ⟨14/5, 14/5, 14/5⟩ := by
  unfold stepRawOf boxSizeOf
  rw [boundsBox_cube, gridRes_half]
  norm_num [vsub, vdivScalar]

/-- The step survives the degeneracy substitution. -/
theorem step_cube : stepOf cubeScene (1/2) (3/10) = ⟨14/5, 14/5, 14/5⟩ := by
  unfold stepOf
  rw [stepRaw_cube]
  rw [if_neg (by norm_num [vlengthSq])]

/-- The grid origin of the concrete scene. -/
theorem boxMin_cube : boxMinOf cubeScene (3/10) = ⟨-(14/5), -(14/5), -(14/5)⟩ := by
  unfold boxMinOf
  rw [boundsBox_cube]
  rfl

/-- The grid corners of the concrete scene. -/
theorem probe_cube (x y z : ℕ) :
    probeAt cubeScene (1/2) (3/10) x y z =
      ⟨-(14/5) + x * (14/5), -(14/5) + y * (14/5), -(14/5) + z * (14/5)⟩ := by
  unfold probeAt
  rw [boxMin_cube, step_cube]

/-- The sampled values of the concrete scene are unit-cube distances. -/
theorem gridValue_cube (x y z : ℕ) :
    gridValue cubeScene (1/2) (3/10) x y z =
      sdBox ⟨-(14/5) + x * (14/5), -(14/5) + y * (14/5), -(14/5) + z * (14/5)⟩
        ⟨0.5, 0.5, 0.5⟩ := by
  unfold gridValue
  rw [probe_cube, sdfEvaluate_cube]

/-- A point farther than `1/2` from the origin along some axis is strictly
outside the unit cube. -/
theorem sdBox_pos_of_big (p : V3)
    (h : 1/2 < |p.x| ∨ 1/2 < |p.y| ∨ 1/2 < |p.z|) :
    0 < sdBox p ⟨0.5, 0.5, 0.5⟩ := by
  unfold sdBox
  dsimp only
  rw [show (0.5 : ℝ) = 1/2 by norm_num]
  have hmax : 0 < max (|p.x| - 1/2) (max (|p.y| - 1/2) (|p.z| - 1/2)) := by
    rcases h with h | h | h
    · exact lt_max_iff.mpr (Or.inl (by linarith))
    · exact lt_max_iff.mpr (Or.inr (lt_max_iff.mpr (Or.inl (by linarith))))
    · exact lt_max_iff.mpr (Or.inr (lt_max_iff.mpr (Or.inr (by linarith))))
  have hmin : min (max (|p.x| - 1/2) (max (|p.y| - 1/2) (|p.z| - 1/2))) 0 = 0 :=
    min_eq_right hmax.le
  have hlen : 0 < vlength ⟨max (|p.x| - 1/2) 0, max (|p.y| - 1/2) 0,
      max (|p.z| - 1/2) 0⟩ := by
    rw [vlength, Real.sqrt_pos]
    show 0 < max (|p.x| - 1/2) 0 * max (|p.x| - 1/2) 0 +
      max (|p.y| - 1/2) 0 * max (|p.y| - 1/2) 0 +
      max (|p.z| - 1/2) 0 * max (|p.z| - 1/2) 0
    rcases h with h | h | h
    · have h1 : 0 < max (|p.x| - 1/2) 0 := lt_max_iff.mpr (Or.inl (by linarith))
      nlinarith [mul_self_nonneg (max (|p.y| - 1/2) 0),
        mul_self_nonneg (max (|p.z| - 1/2) 0)]
    · have h1 : 0 < max (|p.y| - 1/2) 0 := lt_max_iff.mpr (Or.inl (by linarith))
      nlinarith [mul_self_nonneg (max (|p.x| - 1/2) 0),
        mul_self_nonneg (max (|p.z| - 1/2) 0)]
    · have h1 : 0 < max (|p.z| - 1/2) 0 := lt_max_iff.mpr (Or.inl (by linarith))
      nlinarith [mul_self_nonneg (max (|p.x| - 1/2) 0),
        mul_self_nonneg (max (|p.y| - 1/2) 0)]
  rw [hmin]
  linarith

/-- The origin is strictly inside the unit cube. -/
theorem sdBox_origin : sdBox ⟨0, 0, 0⟩ ⟨0.5, 0.5, 0.5⟩ = -(1/2) := by
  unfold sdBox
  norm_num [vlength, vlengthSq, min_def, max_def, Real.sqrt_eq_zero']

/-- The sign pattern of the sampled grid: the centre corner `(1,1,1)` is the
single inside sample, every other corner is outside. -/
theorem gridSign_cube (x y z : ℕ) (hx : x ≤ 2) (hy : y ≤ 2) (hz : z ≤ 2) :
    ((0 : ℝ) < gridValue cubeScene (1/2) (3/10) x y z ↔
      ¬(x = 1 ∧ y = 1 ∧ z = 1)) := by
  rw [gridValue_cube]
  constructor
  · intro hpos hc
    obtain ⟨rfl, rfl, rfl⟩ := hc
    rw [show (-(14/5) + (1 : ℕ) * (14/5) : ℝ) = 0 by norm_num] at hpos
    rw [sdBox_origin] at hpos
    norm_num at hpos
  · intro hne
    apply sdBox_pos_of_big
    have habs : ∀ t : ℕ, t ≤ 2 → t ≠ 1 →
        1/2 < |(-(14/5) + t * (14/5) : ℝ)| := by
      intro t ht ht1
      interval_cases t
      · rw [show (-(14/5) + (0 : ℕ) * (14/5) : ℝ) = -(14/5) by norm_num,
          abs_of_neg (by norm_num)]
        norm_num
      · exact absurd rfl ht1
      · rw [show (-(14/5) + (2 : ℕ) * (14/5) : ℝ) = 14/5 by norm_num,
          abs_of_pos (by norm_num)]
        norm_num
    by_cases hx1 : x = 1
    · by_cases hy1 : y = 1
      · have hz1 : z ≠ 1 := fun hz1 => hne ⟨hx1, hy1, hz1⟩
        exact Or.inr (Or.inr (habs z hz hz1))
      · exact Or.inr (Or.inl (habs y hy hy1))
    · exact Or.inl (habs x hx hx1)

/-- Outside samples of the concrete grid are strictly positive. -/
theorem gridPos_cube (x y z : ℕ) (hx : x ≤ 2) (hy : y ≤ 2) (hz : z ≤ 2)
    (h : ¬(x = 1 ∧ y = 1 ∧ z = 1)) :
    (0 : ℝ) < gridValue cubeScene (1/2) (3/10) x y z :=
  (gridSign_cube x y z hx hy hz).mpr h

/-- The centre sample of the concrete grid is not positive. -/
theorem gridNeg_cube : ¬ (0 : ℝ) < gridValue cubeScene (1/2) (3/10) 1 1 1 := by
  intro hp
  exact (gridSign_cube 1 1 1 (by norm_num) (by norm_num) (by norm_num)).mp hp
    ⟨rfl, rfl, rfl⟩

/-- `signDiff` from an explicit positive/non-positive pair. -/
theorem signDiff_of_pos_neg {a b : ℝ} (ha : 0 < a) (hb : ¬ 0 < b) :
    signDiff a b :=
  fun hiff => hb (hiff.mp ha)

/-- `signDiff` from an explicit non-positive/positive pair. -/
theorem signDiff_of_neg_pos {a b : ℝ} (ha : ¬ 0 < a) (hb : 0 < b) :
    signDiff a b :=
  fun hiff => ha (hiff.mpr hb)

/-- Every cell of the concrete 2×2×2 grid is active (each contains the
single inside corner). -/
theorem cellActive_cube :
    ∀ cx cy cz : ℕ, cx ≤ 1 → cy ≤ 1 → cz ≤ 1 →
      cellActive cubeScene (1/2) (3/10) (cx, cy, cz) := by
  intro cx cy cz hx hy hz
  interval_cases cx <;> interval_cases cy <;> interval_cases cz <;>
    refine ⟨?_, ?_, ?_⟩ <;>
      norm_num [cellMask, cellCount, cellCrossings, reduceCrossings, signDiff,
        gridSign_cube]

/-- The emission order of the eight active cells of the concrete scene. -/
theorem activeCells_cube :
    activeCellsOf cubeScene (1/2) (3/10) =
      [(0,0,0), (1,0,0), (0,1,0), (1,1,0),
       (0,0,1), (1,0,1), (0,1,1), (1,1,1)] := by
  unfold activeCellsOf
  rw [nCells_half]
  rw [show cellList 2 =
    [(0,0,0), (1,0,0), (0,1,0), (1,1,0), (0,0,1), (1,0,1), (0,1,1), (1,1,1)]
    from rfl]
  simp only [List.filter_cons, List.filter_nil, decide_eq_true_eq]
  rw [if_pos (cellActive_cube 0 0 0 (by norm_num) (by norm_num) (by norm_num)),
    if_pos (cellActive_cube 1 0 0 (by norm_num) (by norm_num) (by norm_num)),
    if_pos (cellActive_cube 0 1 0 (by norm_num) (by norm_num) (by norm_num)),
    if_pos (cellActive_cube 1 1 0 (by norm_num) (by norm_num) (by norm_num)),
    if_pos (cellActive_cube 0 0 1 (by norm_num) (by norm_num) (by norm_num)),
    if_pos (cellActive_cube 1 0 1 (by norm_num) (by norm_num) (by norm_num)),
    if_pos (cellActive_cube 0 1 1 (by norm_num) (by norm_num) (by norm_num)),
    if_pos (cellActive_cube 1 1 1 (by norm_num) (by norm_num) (by norm_num))]

/-- The recorded vertex indices of the eight active cells. -/
theorem cellVertIndex_cube :
    cellVertIndex cubeScene (1/2) (3/10) (0,0,0) = some 0 ∧
    cellVertIndex cubeScene (1/2) (3/10) (1,0,0) = some 1 ∧
    cellVertIndex cubeScene (1/2) (3/10) (0,1,0) = some 2 ∧
    cellVertIndex cubeScene (1/2) (3/10) (1,1,0) = some 3 ∧
    cellVertIndex cubeScene (1/2) (3/10) (0,0,1) = some 4 ∧
    cellVertIndex cubeScene (1/2) (3/10) (1,0,1) = some 5 ∧
    cellVertIndex cubeScene (1/2) (3/10) (0,1,1) = some 6 ∧
    cellVertIndex cubeScene (1/2) (3/10) (1,1,1) = some 7 := by
  unfold cellVertIndex
  rw [activeCells_cube]
  exact ⟨rfl, rfl, rfl, rfl, rfl, rfl, rfl, rfl⟩

/-- The exact centre sample value. -/
theorem gridVal_centre : gridValue cubeScene (1/2) (3/10) 1 1 1 = -(1/2) := by
  rw [gridValue_cube]
  rw [show (⟨-(14/5) + (1:ℕ) * (14/5), -(14/5) + (1:ℕ) * (14/5),
    -(14/5) + (1:ℕ) * (14/5)⟩ : V3) = ⟨0, 0, 0⟩ by norm_num]
  exact sdBox_origin

/-- The X-family quad at `x = 0`. -/
theorem addQuad_cube_X0 :
    addQuad cubeScene (1/2) (3/10) (0,0,0) (0,1,0) (0,0,1) (0,1,1)
      ((0:ℝ) < gridValue cubeScene (1/2) (3/10) 0 1 1) =
      ([0,2,6,0,6,4], [0,2,2,6,6,4,4,0]) := by
  obtain ⟨h0, h1, h2, h3, h4, h5, h6, h7⟩ := cellVertIndex_cube
  unfold addQuad
  rw [h0, h2, h4, h6]
  dsimp only
  simp only [if_pos (gridPos_cube 0 1 1 (by norm_num) (by norm_num)
    (by norm_num) (by norm_num))]

/-- The X-family quad at `x = 1`. -/
theorem addQuad_cube_X1 :
    addQuad cubeScene (1/2) (3/10) (1,0,0) (1,1,0) (1,0,1) (1,1,1)
      ((0:ℝ) < gridValue cubeScene (1/2) (3/10) 1 1 1) =
      ([1,5,7,1,7,3], [1,5,5,7,7,3,3,1]) := by
  obtain ⟨h0, h1, h2, h3, h4, h5, h6, h7⟩ := cellVertIndex_cube
  unfold addQuad
  rw [h1, h3, h5, h7]
  dsimp only
  simp only [if_neg gridNeg_cube]

/-- The Y-family quad at `y = 0`. -/
theorem addQuad_cube_Y0 :
    addQuad cubeScene (1/2) (3/10) (0,0,0) (1,0,0) (0,0,1) (1,0,1)
      (gridValue cubeScene (1/2) (3/10) 1 0 1 < 0) =
      ([0,4,5,0,5,1], [0,4,4,5,5,1,1,0]) := by
  obtain ⟨h0, h1, h2, h3, h4, h5, h6, h7⟩ := cellVertIndex_cube
  unfold addQuad
  rw [h0, h1, h4, h5]
  dsimp only
  simp only [if_neg (asymm (gridPos_cube 1 0 1 (by norm_num) (by norm_num)
    (by norm_num) (by norm_num)))]

/-- The Y-family quad at `y = 1`. -/
theorem addQuad_cube_Y1 :
    addQuad cubeScene (1/2) (3/10) (0,1,0) (1,1,0) (0,1,1) (1,1,1)
      (gridValue cubeScene (1/2) (3/10) 1 1 1 < 0) =
      ([2,3,7,2,7,6], [2,3,3,7,7,6,6,2]) := by
  obtain ⟨h0, h1, h2, h3, h4, h5, h6, h7⟩ := cellVertIndex_cube
  unfold addQuad
  rw [h2, h3, h6, h7]
  dsimp only
  simp only [if_pos (show gridValue cubeScene (1/2) (3/10) 1 1 1 < 0 by
    rw [gridVal_centre]; norm_num)]

/-- The Z-family quad at `z = 0`. -/
theorem addQuad_cube_Z0 :
    addQuad cubeScene (1/2) (3/10) (0,0,0) (1,0,0) (0,1,0) (1,1,0)
      ((0:ℝ) < gridValue cubeScene (1/2) (3/10) 1 1 0) =
      ([0,1,3,0,3,2], [0,1,1,3,3,2,2,0]) := by
  obtain ⟨h0, h1, h2, h3, h4, h5, h6, h7⟩ := cellVertIndex_cube
  unfold addQuad
  rw [h0, h1, h2, h3]
  dsimp only
  simp only [if_pos (gridPos_cube 1 1 0 (by norm_num) (by norm_num)
    (by norm_num) (by norm_num))]

/-- The Z-family quad at `z = 1`. -/
theorem addQuad_cube_Z1 :
    addQuad cubeScene (1/2) (3/10) (0,0,1) (1,0,1) (0,1,1) (1,1,1)
      ((0:ℝ) < gridValue cubeScene (1/2) (3/10) 1 1 1) =
      ([4,6,7,4,7,5], [4,6,6,7,7,5,5,4]) := by
  obtain ⟨h0, h1, h2, h3, h4, h5, h6, h7⟩ := cellVertIndex_cube
  unfold addQuad
  rw [h4, h5, h6, h7]
  dsimp only
  simp only [if_neg gridNeg_cube]

/-- The evaluated X-family quad loop of the concrete scene. -/
theorem xQuads_cube :
    xQuadCalls cubeScene (1/2) (3/10) =
      [([0,2,6,0,6,4], [0,2,2,6,6,4,4,0]),
       ([1,5,7,1,7,3], [1,5,5,7,7,3,3,1])] := by
  unfold xQuadCalls
  rw [nCells_half]
  dsimp only
  rw [show List.range' 1 (2-1) = [1] from rfl]
  rw [show List.range 2 = [0, 1] from rfl]
  simp only [List.flatMap_cons, List.flatMap_nil, List.map_cons, List.map_nil,
    List.append_nil, show (1:ℕ)-1 = 0 from rfl, show (0:ℕ)+1 = 1 from rfl,
    show (1:ℕ)+1 = 2 from rfl]
  rw [if_pos (signDiff_of_pos_neg (gridPos_cube 0 1 1 (by norm_num)
    (by norm_num) (by norm_num) (by norm_num)) gridNeg_cube)]
  rw [if_pos (signDiff_of_neg_pos gridNeg_cube (gridPos_cube 2 1 1
    (by norm_num) (by norm_num) (by norm_num) (by norm_num)))]
  rw [addQuad_cube_X0, addQuad_cube_X1]

/-- The evaluated Y-family quad loop of the concrete scene. -/
theorem yQuads_cube :
    yQuadCalls cubeScene (1/2) (3/10) =
      [([0,4,5,0,5,1], [0,4,4,5,5,1,1,0]),
       ([2,3,7,2,7,6], [2,3,3,7,7,6,6,2])] := by
  unfold yQuadCalls
  rw [nCells_half]
  dsimp only
  rw [show List.range' 1 (2-1) = [1] from rfl]
  rw [show List.range 2 = [0, 1] from rfl]
  simp only [List.flatMap_cons, List.flatMap_nil, List.map_cons, List.map_nil,
    List.append_nil, show (1:ℕ)-1 = 0 from rfl, show (0:ℕ)+1 = 1 from rfl,
    show (1:ℕ)+1 = 2 from rfl]
  rw [if_pos (signDiff_of_pos_neg (gridPos_cube 1 0 1 (by norm_num)
    (by norm_num) (by norm_num) (by norm_num)) gridNeg_cube)]
  rw [if_pos (signDiff_of_neg_pos gridNeg_cube (gridPos_cube 1 2 1
    (by norm_num) (by norm_num) (by norm_num) (by norm_num)))]
  rw [addQuad_cube_Y0, addQuad_cube_Y1]
  rfl

/-- The evaluated Z-family quad loop of the concrete scene. -/
theorem zQuads_cube :
    zQuadCalls cubeScene (1/2) (3/10) =
      [([0,1,3,0,3,2], [0,1,1,3,3,2,2,0]),
       ([4,6,7,4,7,5], [4,6,6,7,7,5,5,4])] := by
  unfold zQuadCalls
  rw [nCells_half]
  dsimp only
  rw [show List.range' 1 (2-1) = [1] from rfl]
  rw [show List.range 2 = [0, 1] from rfl]
  simp only [List.flatMap_cons, List.flatMap_nil, List.map_cons, List.map_nil,
    List.append_nil, show (1:ℕ)-1 = 0 from rfl, show (0:ℕ)+1 = 1 from rfl,
    show (1:ℕ)+1 = 2 from rfl]
  rw [if_pos (signDiff_of_pos_neg (gridPos_cube 1 1 0 (by norm_num)
    (by norm_num) (by norm_num) (by norm_num)) gridNeg_cube)]
  rw [if_pos (signDiff_of_neg_pos gridNeg_cube (gridPos_cube 1 1 2
    (by norm_num) (by norm_num) (by norm_num) (by norm_num)))]
  rw [addQuad_cube_Z0, addQuad_cube_Z1]
  rfl

/-- The fully evaluated wireframe index buffer of the concrete scene:
each of the six quads contributes its four edges with no deduplication. -/
theorem meshWire_cube :
    meshWireIndicesOf cubeScene (1/2) (3/10) =
      [0,2,2,6,6,4,4,0, 1,5,5,7,7,3,3,1, 0,4,4,5,5,1,1,0,
       2,3,3,7,7,6,6,2, 0,1,1,3,3,2,2,0, 4,6,6,7,7,5,5,4] := by
  unfold meshWireIndicesOf quadCallsOf
  rw [xQuads_cube, yQuads_cube, zQuads_cube]
  rfl

/-- The non-degenerate path of the mesher on the concrete scene. -/
theorem gen_cube_wire :
    (generateIsosurfaceGeometry cubeScene (1/2) false (3/10)).wireframeIndices =
      meshWireIndicesOf cubeScene (1/2) (3/10) := by
  unfold generateIsosurfaceGeometry
  rw [if_neg (show ¬ cubeScene.length ≤ 1 by norm_num [cubeScene])]
  rw [activeMeshes_cube]
  rfl

/-- Average raw grid step of the concrete scene. -/
theorem avgStep_cube : avgStepOf cubeScene (1/2) (3/10) = 14/5 := by
  unfold avgStepOf
  rw [stepRaw_cube]
  norm_num

/-- `sdBox` at a point outside the unit cube along the x axis only. -/
theorem sdBox_one_axis_x (p : V3) (hx : 1/2 < |p.x|) (hy : |p.y| ≤ 1/2)
    (hz : |p.z| ≤ 1/2) : sdBox p ⟨0.5, 0.5, 0.5⟩ = |p.x| - 1/2 := by
  unfold sdBox
  dsimp only
  rw [show (0.5 : ℝ) = 1/2 by norm_num]
  rw [max_eq_left (a := |p.x| - 1/2)
    (max_le (by linarith) (by linarith))]
  rw [min_eq_right (by linarith : (0:ℝ) ≤ |p.x| - 1/2)]
  rw [max_eq_right (by linarith : |p.y| - 1/2 ≤ 0),
    max_eq_right (by linarith : |p.z| - 1/2 ≤ 0),
    max_eq_left (by linarith : (0:ℝ) ≤ |p.x| - 1/2)]
  rw [vlength, vlengthSq]
  dsimp only
  rw [show (|p.x| - 1/2) * (|p.x| - 1/2) + 0 * 0 + 0 * 0 = (|p.x| - 1/2)^2
    by ring]
  rw [Real.sqrt_sq (by linarith)]
  ring

/-- `sdBox` at a point outside the unit cube along the y axis only. -/
theorem sdBox_one_axis_y (p : V3) (hx : |p.x| ≤ 1/2) (hy : 1/2 < |p.y|)
    (hz : |p.z| ≤ 1/2) : sdBox p ⟨0.5, 0.5, 0.5⟩ = |p.y| - 1/2 := by
  unfold sdBox
  dsimp only
  rw [show (0.5 : ℝ) = 1/2 by norm_num]
  rw [max_eq_left (a := |p.y| - 1/2) (by linarith : |p.z| - 1/2 ≤ |p.y| - 1/2)]
  rw [max_eq_right (by linarith : |p.x| - 1/2 ≤ |p.y| - 1/2)]
  rw [min_eq_right (by linarith : (0:ℝ) ≤ |p.y| - 1/2)]
  rw [max_eq_right (by linarith : |p.x| - 1/2 ≤ 0),
    max_eq_right (by linarith : |p.z| - 1/2 ≤ 0),
    max_eq_left (by linarith : (0:ℝ) ≤ |p.y| - 1/2)]
  rw [vlength, vlengthSq]
  dsimp only
  rw [show 0 * 0 + (|p.y| - 1/2) * (|p.y| - 1/2) + 0 * 0 = (|p.y| - 1/2)^2
    by ring]
  rw [Real.sqrt_sq (by linarith)]
  ring

/-- `sdBox` at a point outside the unit cube along the z axis only. -/
theorem sdBox_one_axis_z (p : V3) (hx : |p.x| ≤ 1/2) (hy : |p.y| ≤ 1/2)
    (hz : 1/2 < |p.z|) : sdBox p ⟨0.5, 0.5, 0.5⟩ = |p.z| - 1/2 := by
  unfold sdBox
  dsimp only
  rw [show (0.5 : ℝ) = 1/2 by norm_num]
  rw [max_eq_right (a := |p.y| - 1/2) (by linarith : |p.y| - 1/2 ≤ |p.z| - 1/2)]
  rw [max_eq_right (by linarith : |p.x| - 1/2 ≤ |p.z| - 1/2)]
  rw [min_eq_right (by linarith : (0:ℝ) ≤ |p.z| - 1/2)]
  rw [max_eq_right (by linarith : |p.x| - 1/2 ≤ 0),
    max_eq_right (by linarith : |p.y| - 1/2 ≤ 0),
    max_eq_left (by linarith : (0:ℝ) ≤ |p.z| - 1/2)]
  rw [vlength, vlengthSq]
  dsimp only
  rw [show 0 * 0 + 0 * 0 + (|p.z| - 1/2) * (|p.z| - 1/2) = (|p.z| - 1/2)^2
    by ring]
  rw [Real.sqrt_sq (by linarith)]
  ring

/-- Value of the sample one step in −x from the centre. -/
theorem gridVal_011 : gridValue cubeScene (1/2) (3/10) 0 1 1 = 23/10 := by
  rw [gridValue_cube]
  rw [show (⟨-(14/5) + (0:ℕ) * (14/5), -(14/5) + (1:ℕ) * (14/5),
    -(14/5) + (1:ℕ) * (14/5)⟩ : V3) = ⟨-(14/5), 0, 0⟩ by norm_num]
  rw [sdBox_one_axis_x ⟨-(14/5), 0, 0⟩
    (by rw [show (⟨-(14/5), 0, 0⟩ : V3).x = -(14/5) from rfl,
      abs_of_neg (by norm_num : (-(14/5) : ℝ) < 0)]; norm_num)
    (by norm_num) (by norm_num)]
  rw [show (⟨-(14/5), 0, 0⟩ : V3).x = -(14/5) from rfl,
    abs_of_neg (by norm_num : (-(14/5) : ℝ) < 0)]
  norm_num

/-- Value of the sample one step in +x from the centre. -/
theorem gridVal_211 : gridValue cubeScene (1/2) (3/10) 2 1 1 = 23/10 := by
  rw [gridValue_cube]
  rw [show (⟨-(14/5) + (2:ℕ) * (14/5), -(14/5) + (1:ℕ) * (14/5),
    -(14/5) + (1:ℕ) * (14/5)⟩ : V3) = ⟨14/5, 0, 0⟩ by norm_num]
  rw [sdBox_one_axis_x ⟨14/5, 0, 0⟩
    (by rw [show (⟨(14/5 : ℝ), 0, 0⟩ : V3).x = 14/5 from rfl,
      abs_of_pos (by norm_num : (0:ℝ) < 14/5)]; norm_num)
    (by norm_num) (by norm_num)]
  rw [show (⟨(14/5 : ℝ), 0, 0⟩ : V3).x = 14/5 from rfl,
    abs_of_pos (by norm_num : (0:ℝ) < 14/5)]
  norm_num

/-- Value of the sample one step in −y from the centre. -/
theorem gridVal_101 : gridValue cubeScene (1/2) (3/10) 1 0 1 = 23/10 := by
  rw [gridValue_cube]
  rw [show (⟨-(14/5) + (1:ℕ) * (14/5), -(14/5) + (0:ℕ) * (14/5),
    -(14/5) + (1:ℕ) * (14/5)⟩ : V3) = ⟨0, -(14/5), 0⟩ by norm_num]
  rw [sdBox_one_axis_y ⟨0, -(14/5), 0⟩ (by norm_num)
    (by rw [show (⟨0, -(14/5), 0⟩ : V3).y = -(14/5) from rfl,
      abs_of_neg (by norm_num : (-(14/5) : ℝ) < 0)]; norm_num)
    (by norm_num)]
  rw [show (⟨0, -(14/5), 0⟩ : V3).y = -(14/5) from rfl,
    abs_of_neg (by norm_num : (-(14/5) : ℝ) < 0)]
  norm_num

/-- Value of the sample one step in +y from the centre. -/
theorem gridVal_121 : gridValue cubeScene (1/2) (3/10) 1 2 1 = 23/10 := by
  rw [gridValue_cube]
  rw [show (⟨-(14/5) + (1:ℕ) * (14/5), -(14/5) + (2:ℕ) * (14/5),
    -(14/5) + (1:ℕ) * (14/5)⟩ : V3) = ⟨0, 14/5, 0⟩ by norm_num]
  rw [sdBox_one_axis_y ⟨0, 14/5, 0⟩ (by norm_num)
    (by rw [show (⟨0, (14/5 : ℝ), 0⟩ : V3).y = 14/5 from rfl,
      abs_of_pos (by norm_num : (0:ℝ) < 14/5)]; norm_num)
    (by norm_num)]
  rw [show (⟨0, (14/5 : ℝ), 0⟩ : V3).y = 14/5 from rfl,
    abs_of_pos (by norm_num : (0:ℝ) < 14/5)]
  norm_num

/-- Value of the sample one step in −z from the centre. -/
theorem gridVal_110 : gridValue cubeScene (1/2) (3/10) 1 1 0 = 23/10 := by
  rw [gridValue_cube]
  rw [show (⟨-(14/5) + (1:ℕ) * (14/5), -(14/5) + (1:ℕ) * (14/5),
    -(14/5) + (0:ℕ) * (14/5)⟩ : V3) = ⟨0, 0, -(14/5)⟩ by norm_num]
  rw [sdBox_one_axis_z ⟨0, 0, -(14/5)⟩ (by norm_num) (by norm_num)
    (by rw [show (⟨0, 0, -(14/5)⟩ : V3).z = -(14/5) from rfl,
      abs_of_neg (by norm_num : (-(14/5) : ℝ) < 0)]; norm_num)]
  rw [show (⟨0, 0, -(14/5)⟩ : V3).z = -(14/5) from rfl,
    abs_of_neg (by norm_num : (-(14/5) : ℝ) < 0)]
  norm_num

/-- Value of the sample one step in +z from the centre. -/
theorem gridVal_112 : gridValue cubeScene (1/2) (3/10) 1 1 2 = 23/10 := by
  rw [gridValue_cube]
  rw [show (⟨-(14/5) + (1:ℕ) * (14/5), -(14/5) + (1:ℕ) * (14/5),
    -(14/5) + (2:ℕ) * (14/5)⟩ : V3) = ⟨0, 0, 14/5⟩ by norm_num]
  rw [sdBox_one_axis_z ⟨0, 0, 14/5⟩ (by norm_num) (by norm_num)
    (by rw [show (⟨0, 0, (14/5 : ℝ)⟩ : V3).z = 14/5 from rfl,
      abs_of_pos (by norm_num : (0:ℝ) < 14/5)]; norm_num)]
  rw [show (⟨0, 0, (14/5 : ℝ)⟩ : V3).z = 14/5 from rfl,
    abs_of_pos (by norm_num : (0:ℝ) < 14/5)]
  norm_num

/-- The emitted vertex of cell `(0,0,0)`. -/
theorem cellVertex_cube_000 :
    cellVertex cubeScene (1/2) (3/10) (0,0,0) = ⟨-(1/6), -(1/6), -(1/6)⟩ := by
  unfold cellVertex
  norm_num [cellCrossings, reduceCrossings, signDiff, gridSign_cube,
    boxMin_cube, step_cube, gridVal_centre, gridVal_011, gridVal_101,
    gridVal_110, gridVal_211, gridVal_121, gridVal_112, interp, vadd,
    V3.mk.injEq]

/-- The emitted vertex of cell `(1,0,0)`. -/
theorem cellVertex_cube_100 :
    cellVertex cubeScene (1/2) (3/10) (1,0,0) = ⟨1/6, -(1/6), -(1/6)⟩ := by
  unfold cellVertex
  norm_num [cellCrossings, reduceCrossings, signDiff, gridSign_cube,
    boxMin_cube, step_cube, gridVal_centre, gridVal_011, gridVal_101,
    gridVal_110, gridVal_211, gridVal_121, gridVal_112, interp, vadd,
    V3.mk.injEq]

/-- The emitted vertex of cell `(0,1,0)`. -/
theorem cellVertex_cube_010 :
    cellVertex cubeScene (1/2) (3/10) (0,1,0) = ⟨-(1/6), 1/6, -(1/6)⟩ := by
  unfold cellVertex
  norm_num [cellCrossings, reduceCrossings, signDiff, gridSign_cube,
    boxMin_cube, step_cube, gridVal_centre, gridVal_011, gridVal_101,
    gridVal_110, gridVal_211, gridVal_121, gridVal_112, interp, vadd,
    V3.mk.injEq]

/-- The emitted vertex of cell `(1,1,0)`. -/
theorem cellVertex_cube_110 :
    cellVertex cubeScene (1/2) (3/10) (1,1,0) = ⟨1/6, 1/6, -(1/6)⟩ := by
  unfold cellVertex
  norm_num [cellCrossings, reduceCrossings, signDiff, gridSign_cube,
    boxMin_cube, step_cube, gridVal_centre, gridVal_011, gridVal_101,
    gridVal_110, gridVal_211, gridVal_121, gridVal_112, interp, vadd,
    V3.mk.injEq]

/-- The emitted vertex of cell `(0,0,1)`. -/
theorem cellVertex_cube_001 :
    cellVertex cubeScene (1/2) (3/10) (0,0,1) = ⟨-(1/6), -(1/6), 1/6⟩ := by
  unfold cellVertex
  norm_num [cellCrossings, reduceCrossings, signDiff, gridSign_cube,
    boxMin_cube, step_cube, gridVal_centre, gridVal_011, gridVal_101,
    gridVal_110, gridVal_211, gridVal_121, gridVal_112, interp, vadd,
    V3.mk.injEq]

/-- The emitted vertex of cell `(1,0,1)`. -/
theorem cellVertex_cube_101 :
    cellVertex cubeScene (1/2) (3/10) (1,0,1) = ⟨1/6, -(1/6), 1/6⟩ := by
  unfold cellVertex
  norm_num [cellCrossings, reduceCrossings, signDiff, gridSign_cube,
    boxMin_cube, step_cube, gridVal_centre, gridVal_011, gridVal_101,
    gridVal_110, gridVal_211, gridVal_121, gridVal_112, interp, vadd,
    V3.mk.injEq]

/-- The emitted vertex of cell `(0,1,1)`. -/
theorem cellVertex_cube_011 :
    cellVertex cubeScene (1/2) (3/10) (0,1,1) = ⟨-(1/6), 1/6, 1/6⟩ := by
  unfold cellVertex
  norm_num [cellCrossings, reduceCrossings, signDiff, gridSign_cube,
    boxMin_cube, step_cube, gridVal_centre, gridVal_011, gridVal_101,
    gridVal_110, gridVal_211, gridVal_121, gridVal_112, interp, vadd,
    V3.mk.injEq]

/-- The emitted vertex of cell `(1,1,1)`. -/
theorem cellVertex_cube_111 :
    cellVertex cubeScene (1/2) (3/10) (1,1,1) = ⟨1/6, 1/6, 1/6⟩ := by
  unfold cellVertex
  norm_num [cellCrossings, reduceCrossings, signDiff, gridSign_cube,
    boxMin_cube, step_cube, gridVal_centre, gridVal_011, gridVal_101,
    gridVal_110, gridVal_211, gridVal_121, gridVal_112, interp, vadd,
    V3.mk.injEq]

/-- The fully evaluated vertex buffer of the concrete scene: eight vertices
at `(±1/6, ±1/6, ±1/6)`. -/
theorem meshVertices_cube :
    meshVerticesOf cubeScene (1/2) (3/10) =
      [-(1/6), -(1/6), -(1/6),  1/6, -(1/6), -(1/6),
       -(1/6), 1/6, -(1/6),  1/6, 1/6, -(1/6),
       -(1/6), -(1/6), 1/6,  1/6, -(1/6), 1/6,
       -(1/6), 1/6, 1/6,  1/6, 1/6, 1/6] := by
  unfold meshVerticesOf
  rw [activeCells_cube]
  simp only [List.flatMap_cons, List.flatMap_nil, cellVertex_cube_000,
    cellVertex_cube_100, cellVertex_cube_010, cellVertex_cube_110,
    cellVertex_cube_001, cellVertex_cube_101, cellVertex_cube_011,
    cellVertex_cube_111]
  rfl

/-- The fully evaluated triangle index buffer of the concrete scene. -/
theorem meshTri_cube :
    meshTriIndicesOf cubeScene (1/2) (3/10) =
      [0,2,6,0,6,4, 1,5,7,1,7,3, 0,4,5,0,5,1,
       2,3,7,2,7,6, 0,1,3,0,3,2, 4,6,7,4,7,5] := by
  unfold meshTriIndicesOf quadCallsOf
  rw [xQuads_cube, yQuads_cube, zQuads_cube]
  rfl

/-- The non-degenerate path of the mesher on the concrete scene, all three
buffers. -/
theorem gen_cube :
    generateIsosurfaceGeometry cubeScene (1/2) false (3/10) =
      ⟨meshVerticesOf cubeScene (1/2) (3/10),
       meshTriIndicesOf cubeScene (1/2) (3/10),
       meshWireIndicesOf cubeScene (1/2) (3/10)⟩ := by
  unfold generateIsosurfaceGeometry
  rw [if_neg (show ¬ cubeScene.length ≤ 1 by norm_num [cubeScene])]
  rw [activeMeshes_cube]
  rfl

-- ## Claim C1

/-- Modelled from the spec: the scalar-field gradient estimated by central
finite differences — the quantity the claim says the mesher compares each
face normal against.  The cited code (`src/utils/sdf.ts`) computes no such
gradient anywhere in its meshing path; this definition follows the spec's
words only, for stating the claim. -/
def claimedSdfGradient (meshes : List MeshNode) (blendStrength eps : ℝ)
    (c : V3) : V3 :=
  ⟨(sdfEvaluate meshes blendStrength ⟨c.x + eps, c.y, c.z⟩ -
      sdfEvaluate meshes blendStrength ⟨c.x - eps, c.y, c.z⟩) / (2 * eps),
   (sdfEvaluate meshes blendStrength ⟨c.x, c.y + eps, c.z⟩ -
      sdfEvaluate meshes blendStrength ⟨c.x, c.y - eps, c.z⟩) / (2 * eps),
   (sdfEvaluate meshes blendStrength ⟨c.x, c.y, c.z + eps⟩ -
      sdfEvaluate meshes blendStrength ⟨c.x, c.y, c.z - eps⟩) / (2 * eps)⟩

/-- Modelled from the spec: the claimed finite-difference step
`max(0.35 × average grid step, 1e-4)`. -/
def claimedNormalStep (meshes : List MeshNode) (resolution blendStrength : ℝ) :
    ℝ :=
  max (0.35 * avgStepOf meshes resolution blendStrength) (1e-4)

/-- The face normal of a triangle `(a, b, c)`: `(b − a) × (c − a)`. -/
def triFaceNormal (a b c : V3) : V3 := vcross (vsub b a) (vsub c a)

/-- Vertex `i` of a mesh, read from its flat position buffer. -/
def meshVertexAt (M : MeshData) (i : ℕ) : V3 :=
  ⟨M.vertices.getD (3*i) 0, M.vertices.getD (3*i + 1) 0,
   M.vertices.getD (3*i + 2) 0⟩

/-- The claimed step evaluates to `0.98` on the concrete scene. -/
theorem claimedNormalStep_cube :
    claimedNormalStep cubeScene (1/2) (3/10) = 49/50 := by
  unfold claimedNormalStep
  rw [avgStep_cube]
  rw [max_eq_left (by norm_num)]
  norm_num

/-- The first three vertices of the first emitted triangle, and the fourth
corner of its quad. -/
theorem meshVertexAt_cube :
    meshVertexAt (generateIsosurfaceGeometry cubeScene (1/2) false (3/10)) 0 =
      ⟨-(1/6), -(1/6), -(1/6)⟩ ∧
    meshVertexAt (generateIsosurfaceGeometry cubeScene (1/2) false (3/10)) 2 =
      ⟨-(1/6), 1/6, -(1/6)⟩ ∧
    meshVertexAt (generateIsosurfaceGeometry cubeScene (1/2) false (3/10)) 6 =
      ⟨-(1/6), 1/6, 1/6⟩ ∧
    meshVertexAt (generateIsosurfaceGeometry cubeScene (1/2) false (3/10)) 4 =
      ⟨-(1/6), -(1/6), 1/6⟩ := by
  refine ⟨?_, ?_, ?_, ?_⟩ <;>
    · unfold meshVertexAt
      rw [show (generateIsosurfaceGeometry cubeScene (1/2) false
        (3/10)).vertices = meshVerticesOf cubeScene (1/2) (3/10)
        by rw [gen_cube], meshVertices_cube]
      rfl

/-- The claimed gradient at the centroid `(-1/6, 0, 0)` of the first quad. -/
theorem claimedGrad_cube :
    claimedSdfGradient cubeScene (3/10) (49/50) ⟨-(1/6), 0, 0⟩ =
      ⟨-(25/147), 0, 0⟩ := by
  unfold claimedSdfGradient
  dsimp only
  rw [show (⟨-(1/6) + 49/50, (0:ℝ), 0⟩ : V3) = ⟨61/75, 0, 0⟩ by norm_num,
    show (⟨-(1/6) - 49/50, (0:ℝ), 0⟩ : V3) = ⟨-(86/75), 0, 0⟩ by norm_num,
    show (⟨-(1/6), (0:ℝ) + 49/50, 0⟩ : V3) = ⟨-(1/6), 49/50, 0⟩ by norm_num,
    show (⟨-(1/6), (0:ℝ) - 49/50, 0⟩ : V3) = ⟨-(1/6), -(49/50), 0⟩ by norm_num,
    show (⟨-(1/6), (0:ℝ), 0 + 49/50⟩ : V3) = ⟨-(1/6), 0, 49/50⟩ by norm_num,
    show (⟨-(1/6), (0:ℝ), 0 - 49/50⟩ : V3) = ⟨-(1/6), 0, -(49/50)⟩ by norm_num]
  rw [sdfEvaluate_cube, sdfEvaluate_cube, sdfEvaluate_cube, sdfEvaluate_cube,
    sdfEvaluate_cube, sdfEvaluate_cube]
  rw [sdBox_one_axis_x ⟨61/75, 0, 0⟩
    (by rw [show (⟨(61/75:ℝ), 0, 0⟩ : V3).x = 61/75 from rfl,
      abs_of_pos (by norm_num)]; norm_num) (by norm_num) (by norm_num)]
  rw [sdBox_one_axis_x ⟨-(86/75), 0, 0⟩
    (by rw [show (⟨-(86/75 : ℝ), 0, 0⟩ : V3).x = -(86/75) from rfl,
      abs_of_neg (by norm_num)]; norm_num) (by norm_num) (by norm_num)]
  rw [sdBox_one_axis_y ⟨-(1/6), 49/50, 0⟩
    (by rw [show (⟨-(1/6 : ℝ), 49/50, 0⟩ : V3).x = -(1/6) from rfl,
      abs_of_neg (by norm_num)]; norm_num)
    (by rw [show (⟨-(1/6 : ℝ), 49/50, 0⟩ : V3).y = 49/50 from rfl,
      abs_of_pos (by norm_num)]; norm_num) (by norm_num)]
  rw [sdBox_one_axis_y ⟨-(1/6), -(49/50), 0⟩
    (by rw [show (⟨-(1/6 : ℝ), -(49/50), 0⟩ : V3).x = -(1/6) from rfl,
      abs_of_neg (by norm_num)]; norm_num)
    (by rw [show (⟨-(1/6 : ℝ), -(49/50), 0⟩ : V3).y = -(49/50) from rfl,
      abs_of_neg (by norm_num)]; norm_num) (by norm_num)]
  rw [sdBox_one_axis_z ⟨-(1/6), 0, 49/50⟩
    (by rw [show (⟨-(1/6 : ℝ), 0, 49/50⟩ : V3).x = -(1/6) from rfl,
      abs_of_neg (by norm_num)]; norm_num) (by norm_num)
    (by rw [show (⟨-(1/6 : ℝ), 0, 49/50⟩ : V3).z = 49/50 from rfl,
      abs_of_pos (by norm_num)]; norm_num)]
  rw [sdBox_one_axis_z ⟨-(1/6), 0, -(49/50)⟩
    (by rw [show (⟨-(1/6 : ℝ), 0, -(49/50)⟩ : V3).x = -(1/6) from rfl,
      abs_of_neg (by norm_num)]; norm_num) (by norm_num)
    (by rw [show (⟨-(1/6 : ℝ), 0, -(49/50)⟩ : V3).z = -(49/50) from rfl,
      abs_of_neg (by norm_num)]; norm_num)]
  rw [show |(61/75 : ℝ)| = 61/75 from abs_of_pos (by norm_num),
    show |(-(86/75) : ℝ)| = 86/75 by rw [abs_of_neg (by norm_num)]; norm_num,
    show |(49/50 : ℝ)| = 49/50 from abs_of_pos (by norm_num),
    show |(-(49/50) : ℝ)| = 49/50 by rw [abs_of_neg (by norm_num)]; norm_num]
  norm_num [V3.mk.injEq]

/-- Normalizing `(-25/147, 0, 0)` yields `(-1, 0, 0)`. -/
theorem vnormalize_grad_cube :
    vnormalize ⟨-(25/147), 0, 0⟩ = (⟨-1, 0, 0⟩ : V3) := by
  have hsq : vlengthSq ⟨-(25/147), 0, 0⟩ = ((25/147 : ℝ))^2 := by
    norm_num [vlengthSq]
  have hl : vlength ⟨-(25/147), 0, 0⟩ = 25/147 := by
    rw [vlength, hsq, Real.sqrt_sq (by norm_num)]
  rw [vnormalize, hl]
  rw [if_neg (by norm_num)]
  norm_num [vdivScalar, V3.mk.injEq]

/-- C1 (counterexample): on the concrete one-cube scene the first emitted
triangle is `(0, 2, 6)` (the X-family quad `(0, 2, 6, 4)` of the −x face of
the mesh).  Its face normal is `(1/9, 0, 0)` (pointing **into** the solid),
while the claimed central-difference gradient at the quad's centroid
`(-1/6, 0, 0)` with the claimed step `max(0.35 × 2.8, 1e-4) = 0.98`
normalizes to `(-1, 0, 0)`: their dot product is `-1/9 < 0`, and the
normalized dot product is `-1` — far outside any floating tolerance.  The
cited code never computes a gradient during meshing, so no winding reversal
ever happens. -/
theorem claim_C1_counterexample :
    (generateIsosurfaceGeometry cubeScene (1/2) false (3/10)).indices.take 3 =
      [0, 2, 6] ∧
    vdot
      (triFaceNormal
        (meshVertexAt (generateIsosurfaceGeometry cubeScene (1/2) false (3/10)) 0)
        (meshVertexAt (generateIsosurfaceGeometry cubeScene (1/2) false (3/10)) 2)
        (meshVertexAt (generateIsosurfaceGeometry cubeScene (1/2) false (3/10)) 6))
      (vnormalize (claimedSdfGradient cubeScene (3/10)
        (claimedNormalStep cubeScene (1/2) (3/10))
        (vsmul (1/4) (vadd (vadd (vadd
          (meshVertexAt (generateIsosurfaceGeometry cubeScene (1/2) false (3/10)) 0)
          (meshVertexAt (generateIsosurfaceGeometry cubeScene (1/2) false (3/10)) 2))
          (meshVertexAt (generateIsosurfaceGeometry cubeScene (1/2) false (3/10)) 6))
          (meshVertexAt (generateIsosurfaceGeometry cubeScene (1/2) false (3/10)) 4)))))
      < 0 := by
  obtain ⟨h0, h2, h6, h4⟩ := meshVertexAt_cube
  constructor
  · rw [show (generateIsosurfaceGeometry cubeScene (1/2) false (3/10)).indices =
      meshTriIndicesOf cubeScene (1/2) (3/10) by rw [gen_cube], meshTri_cube]
    rfl
  · rw [h0, h2, h6, h4, claimedNormalStep_cube]
    rw [show vsmul (1/4) (vadd (vadd (vadd (⟨-(1/6), -(1/6), -(1/6)⟩ : V3)
      ⟨-(1/6), 1/6, -(1/6)⟩) ⟨-(1/6), 1/6, 1/6⟩) ⟨-(1/6), -(1/6), 1/6⟩) =
      (⟨-(1/6), 0, 0⟩ : V3) by norm_num [vsmul, vadd, V3.mk.injEq]]
    rw [claimedGrad_cube, vnormalize_grad_cube]
    norm_num [triFaceNormal, vcross, vsub, vdot]

/-- C1 (amended): the mesher applies **no** gradient-based winding
correction: the triangulation of every emitted quad is a function of the
corner-sign flip hint alone — `(v0,v1,v3),(v0,v3,v2)` under the hint and
`(v0,v2,v3),(v0,v3,v1)` otherwise — and the resulting face normals can
point against the field gradient at the quad centroid (on the one-cube
scene every face does; see the counterexample, where the normalized dot
product is −1 rather than ≥ 0). -/
theorem claim_C1_theorem (meshes : List MeshNode) (resolution blendStrength : ℝ)
    (c0 c1 c2 c3 : ℕ × ℕ × ℕ) (flip : Prop) (v0 v1 v2 v3 : ℕ)
    (h0 : cellVertIndex meshes resolution blendStrength c0 = some v0)
    (h1 : cellVertIndex meshes resolution blendStrength c1 = some v1)
    (h2 : cellVertIndex meshes resolution blendStrength c2 = some v2)
    (h3 : cellVertIndex meshes resolution blendStrength c3 = some v3) :
    (addQuad meshes resolution blendStrength c0 c1 c2 c3 flip).1 =
      if flip then [v0, v1, v3, v0, v3, v2] else [v0, v2, v3, v0, v3, v1] := by
  unfold addQuad
  rw [h0, h1, h2, h3]

/-- C1 (witness): the amended theorem applied to the first quad of the
concrete scene (flip hint true, vertex indices `0, 2, 4, 6`). -/
theorem claim_C1_witness :
    (addQuad cubeScene (1/2) (3/10) (0,0,0) (0,1,0) (0,0,1) (0,1,1) True).1 =
      [0, 2, 6, 0, 6, 4] := by
  obtain ⟨h0, h1, h2, h3, h4, h5, h6, h7⟩ := cellVertIndex_cube
  rw [claim_C1_theorem cubeScene (1/2) (3/10) (0,0,0) (0,1,0) (0,0,1) (0,1,1)
    True 0 2 4 6 h0 h2 h4 h6]
  simp

-- ## Claim C3

/-- The property claim C3 asserts of the wireframe buffer: consecutive index
pairs form a deduplicated undirected edge set — no two pairs name the same
unordered edge. -/
def dedupEdgeSetProp (w : List ℕ) : Prop :=
  ∀ i j : ℕ, 2*i + 1 < w.length → 2*j + 1 < w.length → i ≠ j →
    ({w.getD (2*i) 0, w.getD (2*i+1) 0} : Finset ℕ) ≠
      ({w.getD (2*j) 0, w.getD (2*j+1) 0} : Finset ℕ)

/-- C3 (counterexample): the wireframe buffer is **not** a deduplicated edge
set.  On the concrete one-cube scene the mesher emits 6 quads over 8
vertices and pushes 24 edge pairs; the undirected edge `{0, 4}` appears both
as pair 3 (`4,0`, from the X-family quad, not even in sorted order) and as
pair 8 (`0,4`, from the Y-family quad). -/
theorem claim_C3_counterexample :
    ¬ dedupEdgeSetProp
      ((generateIsosurfaceGeometry cubeScene (1/2) false (3/10)).wireframeIndices) := by
  rw [gen_cube_wire, meshWire_cube]
  intro hp
  exact absurd (by decide) (hp 3 8 (by decide) (by decide) (by decide))

/-- Per-call shape: each quad-loop iteration contributes either nothing or
exactly 6 triangle indices and 8 wireframe indices. -/
theorem quadCallsOf_shape (meshes : List MeshNode) (resolution blendStrength : ℝ) :
    ∀ q ∈ quadCallsOf meshes resolution blendStrength,
      (q.1 = [] ∧ q.2 = []) ∨ (q.1.length = 6 ∧ q.2.length = 8) := by
  intro q hq
  rcases quadCallsOf_mem meshes resolution blendStrength q hq with
    ⟨c0, c1, c2, c3, flip, rfl⟩ | rfl
  · unfold addQuad
    cases cellVertIndex meshes resolution blendStrength c0 with
    | none => exact Or.inl ⟨rfl, rfl⟩
    | some v0 =>
    cases cellVertIndex meshes resolution blendStrength c1 with
    | none => exact Or.inl ⟨rfl, rfl⟩
    | some v1 =>
    cases cellVertIndex meshes resolution blendStrength c2 with
    | none => exact Or.inl ⟨rfl, rfl⟩
    | some v2 =>
    cases cellVertIndex meshes resolution blendStrength c3 with
    | none => exact Or.inl ⟨rfl, rfl⟩
    | some v3 =>
      refine Or.inr ?_
      by_cases hf : flip
      · simp [hf]
      · simp [hf]
  · exact Or.inl ⟨rfl, rfl⟩

/-- Buffer lengths versus emitted quads, for any call list of that shape. -/
theorem quad_lengths (L : List (List ℕ × List ℕ))
    (h : ∀ q ∈ L, (q.1 = [] ∧ q.2 = []) ∨ (q.1.length = 6 ∧ q.2.length = 8)) :
    (L.flatMap Prod.snd).length =
      8 * (L.filter (fun q => !(q.1.isEmpty))).length ∧
    (L.flatMap Prod.fst).length =
      6 * (L.filter (fun q => !(q.1.isEmpty))).length := by
  induction L with
  | nil => simp
  | cons a L ih =>
    obtain ⟨ih2, ih1⟩ := ih (fun q hq => h q (List.mem_cons_of_mem a hq))
    rcases h a (List.mem_cons_self a L) with ⟨ha1, ha2⟩ | ⟨ha1, ha2⟩
    · simp [List.flatMap_cons, List.filter_cons, ha1, ha2, ih1, ih2]
    · have hne : a.1.isEmpty = false := by
        cases hl : a.1
        · rw [hl] at ha1; simp at ha1
        · simp [hl]
      simp only [List.flatMap_cons, List.filter_cons, hne, Bool.not_false,
        if_true, List.length_append, List.length_cons, ha1, ha2, ih1, ih2]
      omega

/-- C3 (amended): the wireframe buffer of `generateIsosurfaceGeometry` lists
the four boundary edges of **each** emitted quad with multiplicity and
without canonicalization — no deduplication is applied — so its length is
exactly `8 × (number of emitted quads)` (four edges, two endpoints each),
and the triangle buffer's length is exactly `6 × (number of emitted quads)`;
an edge shared by adjacent quads therefore appears once per quad, not once
overall. -/
theorem claim_C3_theorem (meshes : List MeshNode) (resolution blendStrength : ℝ) :
    (meshWireIndicesOf meshes resolution blendStrength).length =
      8 * emittedQuadCount meshes resolution blendStrength ∧
    (meshTriIndicesOf meshes resolution blendStrength).length =
      6 * emittedQuadCount meshes resolution blendStrength := by
  have h := quad_lengths (quadCallsOf meshes resolution blendStrength)
    (quadCallsOf_shape meshes resolution blendStrength)
  exact ⟨h.1, h.2⟩

/-- C10 (witness): the bound theorem applied to the concrete one-cube scene
at the first wireframe index (index 0, addressing vertex 0 of the 8 emitted
vertices). -/
theorem claim_C10_witness :
    3 * 0 + 2 < (generateIsosurfaceGeometry cubeScene (1/2) false
      (3/10)).vertices.length := by
  refine claim_C10_theorem cubeScene (1/2) (3/10) false 0 (Or.inr ?_)
  rw [gen_cube_wire, meshWire_cube]
  decide

-- ## Claim C8: termination of the transform resolver

/-- On a snapshot that admits a rank function decreasing along resolvable
parent links (the shape of an acyclic parent relation), the value of
`getWorldMatrixFuel` is already stable (and defined) at fuel `rank id + 1`. -/
theorem getWorldMatrixFuel_stable (meshes : List MeshNode) (rank : String → ℕ)
    (hrank : ∀ a ma pid, findNode meshes a = some ma → ma.parentId = some pid →
      (findNode meshes pid).isSome → rank pid < rank a) :
    ∀ fuel id, rank id < fuel →
      getWorldMatrixFuel meshes fuel id =
        getWorldMatrixFuel meshes (rank id + 1) id ∧
      (getWorldMatrixFuel meshes fuel id).isSome := by
  intro fuel
  induction fuel using Nat.strong_induction_on with
  | _ fuel ih =>
    intro id hid
    obtain ⟨f, rfl⟩ : ∃ f, fuel = f + 1 := ⟨fuel - 1, by omega⟩
    cases hfind : findNode meshes id with
    | none =>
      constructor <;> simp [getWorldMatrixFuel, hfind]
    | some mesh =>
      cases hpar : mesh.parentId with
      | none =>
        constructor <;> simp [getWorldMatrixFuel, hfind, hpar]
      | some pid =>
        by_cases hhas : (findNode meshes pid).isSome
        · have hlt : rank pid < rank id := hrank id mesh pid hfind hpar hhas
          have h1 := ih f (by omega) pid (by omega)
          have h2 := ih (rank id) (by omega) pid (by omega)
          constructor
          · simp only [getWorldMatrixFuel, hfind, hpar, hhas, if_true]
            rw [h1.1, h2.1]
          · simp only [getWorldMatrixFuel, hfind, hpar, hhas, if_true]
            rw [h1.1]
            have := h2.2
            rw [h2.1] at this
            simpa using this
        · constructor <;>
            simp [getWorldMatrixFuel, hfind, hpar, hhas]

/-- C8: on every snapshot whose parent relation is acyclic — witnessed by a
rank function that decreases along each resolvable parent link — the
recursive `getWorldMatrix` of `createSDFEvaluator` terminates for every node
id (its fuel model stabilises on a value once the fuel exceeds the node's
rank), and a node whose `parentId` is missing from the snapshot is treated
as having no parent: its world matrix is exactly its local matrix, with no
error and no divergence. -/
theorem claim_C8_theorem (meshes : List MeshNode) (rank : String → ℕ)
    (hrank : ∀ a ma pid, findNode meshes a = some ma → ma.parentId = some pid →
      (findNode meshes pid).isSome → rank pid < rank a) :
    (∀ id, ∃ M, ∀ fuel, rank id < fuel →
        getWorldMatrixFuel meshes fuel id = some M) ∧
    (∀ id mesh pid, findNode meshes id = some mesh → mesh.parentId = some pid →
      findNode meshes pid = none →
      ∀ fuel, getWorldMatrixFuel meshes (fuel + 1) id =
        some (localMatrixOf mesh)) := by
  constructor
  · intro id
    obtain ⟨h1, h2⟩ :=
      getWorldMatrixFuel_stable meshes rank hrank (rank id + 1) id (by omega)
    obtain ⟨M, hM⟩ := Option.isSome_iff_exists.mp h2
    refine ⟨M, fun fuel hfuel => ?_⟩
    have := (getWorldMatrixFuel_stable meshes rank hrank fuel id hfuel).1
    rw [this, ← h1, hM]
  · intro id mesh pid hfind hpar hmiss fuel
    simp [getWorldMatrixFuel, hfind, hpar, hmiss]

/-- A concrete two-node snapshot for the C8 witness: `WA` has a dangling
parent reference, `WB` is a child of `WA`. -/
def witnessNodeA : MeshNode :=
  ⟨"A", .sphere, .union, ⟨1, 2, 3⟩, ⟨0, 0, 0⟩, 1, some "MISSING", true⟩

/-- Second node of the C8 witness snapshot. -/
def witnessNodeB : MeshNode :=
  ⟨"B", .cube, .union, ⟨4, 5, 6⟩, ⟨0, 0, 0⟩, 2, some "A", true⟩

/-- The C8 witness snapshot `[A, B]`. -/
def witnessMeshes : List MeshNode := [witnessNodeA, witnessNodeB]

/-- Rank function for the C8 witness snapshot. -/
def witnessRank (s : String) : ℕ := if s = "B" then 1 else 0

/-- C8 (witness): the theorem applied to the concrete snapshot
`[A (parent "MISSING"), B (parent "A")]` with the rank `A ↦ 0, B ↦ 1`:
resolution of `"B"` stabilises, and the dangling node `"A"` resolves to its
local matrix. -/
theorem claim_C8_witness :
    (∃ M, ∀ fuel, witnessRank "B" < fuel →
      getWorldMatrixFuel witnessMeshes fuel "B" = some M) ∧
    getWorldMatrixFuel witnessMeshes 1 "A" = some (localMatrixOf witnessNodeA) := by
  have hA : findNode witnessMeshes "A" = some witnessNodeA := by
    simp [findNode, witnessMeshes, witnessNodeA, witnessNodeB, List.find?]
  have hB : findNode witnessMeshes "B" = some witnessNodeB := by
    simp [findNode, witnessMeshes, witnessNodeA, witnessNodeB, List.find?]
  have hM : findNode witnessMeshes "MISSING" = none := by
    simp [findNode, witnessMeshes, witnessNodeA, witnessNodeB, List.find?]
  have hrank : ∀ a ma pid, findNode witnessMeshes a = some ma →
      ma.parentId = some pid → (findNode witnessMeshes pid).isSome →
      witnessRank pid < witnessRank a := by
    intro a ma pid hfind hpar hhas
    by_cases ha : a = "B"
    · subst ha
      rw [hB] at hfind
      cases hfind
      rw [witnessNodeB] at hpar
      simp at hpar
      subst hpar
      simp [witnessRank]
    · by_cases ha2 : a = "A"
      · subst ha2
        rw [hA] at hfind
        cases hfind
        rw [witnessNodeA] at hpar
        simp at hpar
        subst hpar
        rw [hM] at hhas
        simp at hhas
      · exfalso
        have hb : ("B" == a) = false :=
          beq_eq_false_iff_ne.mpr (fun h => ha h.symm)
        have ha3 : ("A" == a) = false :=
          beq_eq_false_iff_ne.mpr (fun h => ha2 h.symm)
        have : findNode witnessMeshes a = none := by
          simp [findNode, witnessMeshes, witnessNodeA, witnessNodeB, List.find?,
            hb, ha3]
        rw [this] at hfind
        cases hfind
  obtain ⟨hterm, hdangle⟩ := claim_C8_theorem witnessMeshes witnessRank hrank
  refine ⟨hterm "B", ?_⟩
  have := hdangle "A" witnessNodeA "MISSING" hA (by rw [witnessNodeA]) hM 0
  simpa using this

end

end NghiSculp
